import Mathlib

/-!
Verification of the signal-aggregation and risk-scoring pipeline of the
`tz_bot_lite_pennystock_fetcher` repository.

The Python sources are shallowly embedded: pandas single-row dataframes become
records of optional rationals (`none` modelling an absent column or a NaN
cell), Python dicts become ordered association lists, the Mongo document store
becomes a list of documents, and wall-clock dates become rational day numbers
passed in explicitly.  Floating-point arithmetic is modelled by exact rational
arithmetic; NaN/inf propagation of pandas column arithmetic is modelled
explicitly at each comparison site.
-/

namespace TzBot

/-- Model of `ChartAnalyzer.to_two_decimal` / Python `round(x, 2)`: round to two decimal
places.  (Python uses banker's rounding on binary floats; the claims under
study do not depend on the tie-breaking rule, so ordinary rounding on `ℚ` is
used.) -/
def round2 (q : ℚ) : ℚ := (round (q * 100) : ℤ) / 100

/-- A numeric cell of the scanner's single-row dataframe: `none` is a missing
(NaN) value, as produced by `pd.to_numeric(..., errors='coerce')` on an absent
or unparsable input value. -/
abbrev Cell := Option ℚ

/-- A column of the scanner's single-row dataframe: `none` when the column is
absent from the input record, `some c` when the column is present with cell
`c` (where `c = none` means NaN / NaT). -/
abbrev Col := Option Cell

/-- Indicator value of a boolean pandas condition, `.astype(float)`. -/
def bq (b : Bool) : ℚ := if b then 1 else 0

/-- Pandas comparison `cell < q`: `False` when the cell is NaN. -/
def cellLt (c : Cell) (q : ℚ) : Bool :=
  match c with
  | none => false
  | some v => decide (v < q)

/-- Pandas comparison `(num / den) < q` under float-division semantics:
NaN operands give `False`; division by zero gives `±inf` (or NaN for `0/0`),
so the comparison with a finite `q` holds exactly when the numerator is
negative. -/
def pdDivLt (num den : Cell) (q : ℚ) : Bool :=
  match num, den with
  | some n, some d => if d = 0 then decide (n < 0) else decide (n / d < q)
  | _, _ => false

/-- Pandas comparison `(num / den) > q` under float-division semantics
(mirror image of `pdDivLt`). -/
def pdDivGt (num den : Cell) (q : ℚ) : Bool :=
  match num, den with
  | some n, some d => if d = 0 then decide (0 < n) else decide (q < n / d)
  | _, _ => false

/-- Multiply a cell by a scalar (`outstandingshares * current_price`);
NaN propagates. -/
def cellMul (c : Cell) (q : ℚ) : Cell := c.map (· * q)

/-- The single-row dataframe held by `ShortSqueezeScanner` after
`_clean_data_types`, restricted to the columns read by
`calculate_squeeze_risk` / `calculate_atm_risk`.  Field names follow the
dataframe column names: `float`, `outstandingshares`, `cash (usd)`,
`last shelf date` (value = date as a rational day number; `some none` = NaT),
`burn rate (months)`. -/
structure ScanData where
  float : Col
  outstandingshares : Col
  cash : Col
  lastShelfDate : Col
  burnRate : Col
deriving Repr, DecidableEq

/-- The `(component, weight)` list built by
`ShortSqueezeScanner.calculate_squeeze_risk`.  Each appended component is
already `weight * indicator`, exactly as in the source
(`0.5 * (...contains('Extreme Risk')...)`, etc.); the short-interest
component (weight `0.2`) is always appended, with indicator `0` when the
short-interest argument is `None` or the `float` column is absent. -/
def squeezeComponents (d : ScanData) (currentPrice : Option ℚ)
    (shortInterest : Option ℚ) : List (ℚ × ℚ) :=
  ((match d.float with
   | some f => [((1/2) * bq (cellLt f 1000000), 1/2)]
   | none => []) : List (ℚ × ℚ)) ++
  ((match d.float, d.outstandingshares with
   | some f, some o => [((1/5) * bq (pdDivLt f o (2/5)), 1/5)]
   | _, _ => []) : List (ℚ × ℚ)) ++
  ([((1/5) * (match shortInterest, d.float with
           | some si, some f => bq (pdDivGt (some si) f (3/10))
           | _, _ => 0), 1/5)] : List (ℚ × ℚ)) ++
  (match currentPrice, d.outstandingshares, d.cash with
   | some p, some o, some c => [((1/10) * bq (pdDivLt c (cellMul o p) (1/10)), 1/10)]
   | _, _, _ => [])

/-- Model of the composite score of `ShortSqueezeScanner.calculate_squeeze_risk`:
`sum(comp * (weight / total_weight) for comp, weight in zip(...))`,
`0` when no component was collected. -/
def squeezeScore (d : ScanData) (currentPrice : Option ℚ)
    (shortInterest : Option ℚ) : ℚ :=
  let cs := squeezeComponents d currentPrice shortInterest
  if cs.isEmpty then 0
  else
    let totalWeight := (cs.map Prod.snd).sum
    (cs.map (fun cw => cw.1 * (cw.2 / totalWeight))).sum

/-- The `(indicator, weight)` presentation of the same component list:
the raw 0/1 indicator paired with its weight.  `squeezeComponents` is the
image of this list under `(i, w) ↦ (w * i, w)`. -/
def indicatorComponents (d : ScanData) (currentPrice : Option ℚ)
    (shortInterest : Option ℚ) : List (ℚ × ℚ) :=
  ((match d.float with
   | some f => [(bq (cellLt f 1000000), 1/2)]
   | none => []) : List (ℚ × ℚ)) ++
  ((match d.float, d.outstandingshares with
   | some f, some o => [(bq (pdDivLt f o (2/5)), 1/5)]
   | _, _ => []) : List (ℚ × ℚ)) ++
  ([((match shortInterest, d.float with
     | some si, some f => bq (pdDivGt (some si) f (3/10))
     | _, _ => 0), 1/5)] : List (ℚ × ℚ)) ++
  (match currentPrice, d.outstandingshares, d.cash with
   | some p, some o, some c => [(bq (pdDivLt c (cellMul o p) (1/10)), 1/10)]
   | _, _, _ => [])

/-- The score the claim describes: the weighted sum of the present indicators
with the surviving weights renormalized to sum to 1 —
`Σ indᵢ · (wᵢ / Σ wᵢ)` over the collected components. -/
def claimRenormalizedScore (d : ScanData) (currentPrice : Option ℚ)
    (shortInterest : Option ℚ) : ℚ :=
  let cs := indicatorComponents d currentPrice shortInterest
  if cs.isEmpty then 0
  else
    let totalWeight := (cs.map Prod.snd).sum
    (cs.map (fun iw => iw.1 * (iw.2 / totalWeight))).sum

/-- Model of `ShortSqueezeScanner.calculate_atm_risk`: `atm_urgency` is `1` exactly
when the `last shelf date` column holds a parsed date `d`, the
`burn rate (months)` column holds a numeric value `b`, and
`b < (shelf date − now).days / 30`, where `(· − ·).days` floors the
(typically negative) day difference.  A missing/NaT shelf date, a missing
burn-rate column (`KeyError` caught by the `except` branch) or a NaN burn
rate (pandas comparison `False`) all give `0`.  `now` is the
`datetime.now()` timestamp as a rational day number. -/
def scannerAtmUrgency (lastShelfDate burnRate : Col) (now : ℚ) : ℤ :=
  match lastShelfDate with
  | some (some d) =>
    match burnRate with
    | none => 0
    | some none => 0
    | some (some b) => if b < ((⌊d - now⌋ : ℤ) : ℚ) / 30 then 1 else 0
  | _ => 0

/-- Modelled from the claim's reading of the spec: `atm_urgency` = 1 iff the
burn rate is strictly less than the number of days remaining until the shelf
registration's 3-year validity window expires, divided by 30 — i.e.
`b < (shelf date + 3·365 − now).days / 30`. -/
def claimAtmUrgency (lastShelfDate burnRate : Col) (now : ℚ) : ℤ :=
  match lastShelfDate, burnRate with
  | some (some d), some (some b) =>
      if b < ((⌊d + 3 * 365 - now⌋ : ℤ) : ℚ) / 30 then 1 else 0
  | _, _ => 0

/-- Python truthiness of an optional number (`if cash:` etc.): `None` and `0`
are falsy. -/
def qTruthy : Option ℚ → Bool
  | none => false
  | some q => decide (q ≠ 0)

/-- A regulatory filing as consumed by `SECFinancialAnalyzer.get_company_data`:
its form name and its filing date (as a rational day number). -/
structure Filing where
  form : String
  date : ℚ
deriving Repr, DecidableEq

/-- The fixed shelf-registration form set `{'S-3','S-3/A','S-3ASR','F-3','F-3ASR'}`. -/
def shelfForms : List String := ["S-3", "S-3/A", "S-3ASR", "F-3", "F-3ASR"]

/-- Model of `shelf_filings`: the filings whose form is a shelf form. -/
def shelfFilings (filings : List Filing) : List Filing :=
  filings.filter (fun f => shelfForms.contains f.form)

/-- Model of `valid_shelf`: shelf filings dated after `now − 3 years`; the cutoff
`pd.Timestamp.now() - pd.DateOffset(years=3)` is passed in as a day number. -/
def validShelfFilings (filings : List Filing) (cutoff : ℚ) : List Filing :=
  (shelfFilings filings).filter (fun f => decide (cutoff < f.date))

/-- The risk reason returned beside the level by
`SECFinancialAnalyzer.calculate_atm_risk` (the Python f-string messages,
with the interpolated ratio / burn rate carried as data). -/
inductive AtmReason where
  | noShelf
  | noCash
  | cashBelow5M
  | cashBelow10M
  | ratioBelow10 (ratio : ℚ)
  | ratioBelow25 (ratio : ℚ)
  | lowBurnRate (burnRate : ℚ)
  | adequate
deriving Repr, DecidableEq

/-- Model of `SECFinancialAnalyzer.calculate_atm_risk`: the top-to-bottom risk decision
chain.  `cash_ratio = cash / debt if cash and debt else 0` uses Python
truthiness, so a missing or zero debt (or cash) yields ratio `0`; the burn-rate
guard `burn_rate and burn_rate < 6` likewise skips a missing or zero burn
rate. -/
def calcAtmRisk (hasShelf : Bool) (cash debt burnRate : Option ℚ) :
    String × AtmReason :=
  if !hasShelf then ("None", .noShelf)
  else
    let cashRatio : ℚ :=
      if qTruthy cash && qTruthy debt then cash.getD 0 / debt.getD 0 else 0
    if !qTruthy cash then ("Very High", .noCash)
    else if cash.getD 0 < 5000000 then ("Very High", .cashBelow5M)
    else if cash.getD 0 < 10000000 then ("High", .cashBelow10M)
    else if cashRatio < 1/10 then ("High", .ratioBelow10 cashRatio)
    else if cashRatio < 1/4 then ("Medium-High", .ratioBelow25 cashRatio)
    else if qTruthy burnRate && decide (burnRate.getD 0 < 6) then
      ("Medium-High", .lowBurnRate (burnRate.getD 0))
    else ("Medium", .adequate)

/-- Boolean substring test, Python's `pat in s` on strings. -/
def listPrefixOfB : List Char → List Char → Bool
  | [], _ => true
  | _ :: _, [] => false
  | p :: ps, c :: cs => p == c && listPrefixOfB ps cs

/-- Whether `pat` occurs (contiguously) inside `l`. -/
def listSubOfB (pat : List Char) : List Char → Bool
  | [] => listPrefixOfB pat []
  | c :: cs => listPrefixOfB pat (c :: cs) || listSubOfB pat cs

/-- Python `pat in s` for strings: substring occurrence. -/
def strHasSub (s pat : String) : Bool := listSubOfB pat.toList s.toList

/-- One entry of `recommendations["reasons"]` in
`generate_trading_recommendations` (the f-string messages, with interpolated
numbers carried as data). -/
inductive RecReason where
  | noDilutionRisk
  | veryHighAtm (riskReason : String)
  | highAtm (riskReason : String)
  | mediumHighAtm (riskReason : String)
  | moderate
  | strongCash (ratio : ℚ)
  | weakCash (ratio : ℚ)
  | criticalBurn (burnRate : ℚ)
  | warningBurn (burnRate : ℚ)
  | activeShelf
  | extremelyLowCash (cash : ℚ)
  | lowCash (cash : ℚ)
deriving Repr, DecidableEq

/-- The `recommendations` dict mutated by `generate_trading_recommendations`. -/
structure RecState where
  overall : String
  confidence : String
  reasons : List RecReason
  strategy : String
  shortSqueeze : Option String
deriving Repr, DecidableEq

/-- The default recommendation installed before any rule runs. -/
def recInit : RecState :=
  { overall := "Hold - Insufficient data to make recommendation"
    confidence := "Low"
    reasons := []
    strategy := "Monitor for more financial information"
    shortSqueeze := none }

/-- The fields of the analysis dict read by
`generate_trading_recommendations`: cash (`Cash (USD)`), the cash/debt ratio
and burn rate already parsed back from their string forms (`None` for
`"N/A"`/unparsable), the ATM risk level and reason strings, and the
`Valid Shelf Filings` count. -/
structure RecData where
  cash : Option ℚ
  cashRatio : Option ℚ
  burnRate : Option ℚ
  riskLevel : String
  riskReason : String
  validShelfCount : ℕ
deriving Repr, DecidableEq

/-- The risk-level baseline: the `if risk_level == ... / elif ...` chain that
sets the initial stance, confidence, reason and strategy. -/
def baselineStep (d : RecData) (r : RecState) : RecState :=
  if d.riskLevel == "None" && qTruthy d.cash && decide ((10000000 : ℚ) < d.cash.getD 0) then
    { r with overall := "Hold/Accumulate", confidence := "Medium"
             reasons := r.reasons ++ [.noDilutionRisk]
             strategy := "Conservative position sizing with tight stops" }
  else if d.riskLevel == "Very High" then
    { r with overall := "Avoid/Sell", confidence := "High"
             reasons := r.reasons ++ [.veryHighAtm d.riskReason]
             strategy := "Exit positions or avoid entry until financial situation improves" }
  else if d.riskLevel == "High" then
    { r with overall := "Sell/Short-term only", confidence := "Medium-High"
             reasons := r.reasons ++ [.highAtm d.riskReason]
             strategy := "Day trading only with strict risk management, avoid swing positions" }
  else if d.riskLevel == "Medium-High" then
    { r with overall := "Caution/Short-term", confidence := "Medium"
             reasons := r.reasons ++ [.mediumHighAtm d.riskReason]
             strategy := "Reduced position size, quick profit taking, tight stops" }
  else if d.riskLevel == "Medium" then
    { r with overall := "Hold with caution", confidence := "Medium"
             reasons := r.reasons ++ [.moderate]
             strategy := "Normal position sizing with standard risk management" }
  else r

/-- The cash/debt-ratio rule (`if cash_ratio is not None: ...`): a ratio above
1.5 switches any stance other than `"Avoid/Sell"` to `"Hold/Accumulate"`; a
ratio below 0.25 switches any stance not containing `"High"` to
`"Reduce/Caution"`. -/
def cashRatioStep (d : RecData) (r : RecState) : RecState :=
  match d.cashRatio with
  | none => r
  | some q =>
    if 3/2 < q then
      let r1 := { r with reasons := r.reasons ++ [.strongCash q] }
      if r1.overall != "Avoid/Sell" then { r1 with overall := "Hold/Accumulate" } else r1
    else if q < 1/4 then
      let r1 := { r with reasons := r.reasons ++ [.weakCash q] }
      if !(strHasSub r1.overall "High") then { r1 with overall := "Reduce/Caution" } else r1
    else r

/-- The burn-rate rule: below 3 months sets `"Reduce/Avoid"` unless the
stance contains `"Avoid"`; between 3 and 6 months sets `"Caution/Reduce"`
unless the stance contains `"Caution"` or `"Avoid"`. -/
def burnRateStep (d : RecData) (r : RecState) : RecState :=
  match d.burnRate with
  | none => r
  | some b =>
    if b < 3 then
      let r1 := { r with reasons := r.reasons ++ [.criticalBurn b] }
      if !(strHasSub r1.overall "Avoid") then { r1 with overall := "Reduce/Avoid" } else r1
    else if b < 6 then
      let r1 := { r with reasons := r.reasons ++ [.warningBurn b] }
      if !(strHasSub r1.overall "Caution") && !(strHasSub r1.overall "Avoid") then
        { r1 with overall := "Caution/Reduce" }
      else r1
    else r

/-- The shelf rule (`if has_shelf:`): appends a reason and, when the stance
contains neither `"Avoid"` nor `"Sell"`, extends the strategy string. -/
def shelfStep (d : RecData) (r : RecState) : RecState :=
  if 0 < d.validShelfCount then
    let r1 := { r with reasons := r.reasons ++ [.activeShelf] }
    if !(strHasSub r1.overall "Avoid") && !(strHasSub r1.overall "Sell") then
      { r1 with strategy := r1.strategy ++ "; Be prepared for potential offerings" }
    else r1
  else r

/-- The absolute-cash rule (`if cash:`): below $5M sets `"Avoid/Sell"` unless
the stance contains `"Avoid"`; below $10M sets `"Caution/Reduce"` unless the
stance contains `"Caution"` or `"Avoid"`. -/
def absCashStep (d : RecData) (r : RecState) : RecState :=
  if qTruthy d.cash then
    let c := d.cash.getD 0
    if c < 5000000 then
      let r1 := { r with reasons := r.reasons ++ [.extremelyLowCash c] }
      if !(strHasSub r1.overall "Avoid") then { r1 with overall := "Avoid/Sell" } else r1
    else if c < 10000000 then
      let r1 := { r with reasons := r.reasons ++ [.lowCash c] }
      if !(strHasSub r1.overall "Caution") && !(strHasSub r1.overall "Avoid") then
        { r1 with overall := "Caution/Reduce" }
      else r1
    else r
  else r

/-- The short-squeeze-potential text set by the final block of
`generate_trading_recommendations`. -/
def squeezeTextStep (d : RecData) (r : RecState) : RecState :=
  if qTruthy d.cash && decide (d.cash.getD 0 < 10000000) && decide (0 < d.validShelfCount) then
    let lowPotential :=
      match d.cashRatio with
      | some q => qTruthy (some q) && decide (3/4 < q)
      | none => false
    if lowPotential then
      { r with shortSqueeze := some "Moderate short squeeze risk despite active shelf" }
    else
      { r with shortSqueeze := some "High short squeeze risk due to low cash and active shelf" }
  else { r with shortSqueeze := some "Low short squeeze risk" }

/-- Model of `SECFinancialAnalyzer.generate_trading_recommendations`: the default
recommendation followed by the baseline and the four sequential refinement
rules, then the short-squeeze text. -/
def generateTradingRecommendations (d : RecData) : RecState :=
  squeezeTextStep d (absCashStep d (shelfStep d (burnRateStep d
    (cashRatioStep d (baselineStep d recInit)))))

/-- Strictness rank of a stance string, used to compare stances: higher is
more cautious.  (`"Avoid/Sell"` is the strictest stance the cascade can set;
`"Hold/Accumulate"` and the initial stance are the loosest.) -/
def stanceRank (s : String) : ℕ :=
  if s == "Avoid/Sell" then 4
  else if s == "Sell/Short-term only" then 3
  else if s == "Reduce/Avoid" then 3
  else if s == "Caution/Short-term" then 2
  else if s == "Caution/Reduce" then 2
  else if s == "Reduce/Caution" then 2
  else if s == "Hold with caution" then 1
  else 0

/-- One parsed OHLCV bar of `ChartAnalyzer` (`{"datetime": ..., "open": ...,
"high": ..., "low": ..., "close": ..., "volume": ...}`), with the datetime
split into its calendar date (a day index) and its time of day in minutes
since midnight. -/
structure Bar where
  date : ℤ
  time : ℕ
  openPrice : ℚ
  high : ℚ
  low : ℚ
  close : ℚ
  volume : ℚ
deriving Repr, DecidableEq

/-- The constant `market_open_time = dtime(9, 30)`, in minutes since midnight. -/
def marketOpenMinutes : ℕ := 9 * 60 + 30

/-- The date of the last trading day present in the 1-minute data:
`sorted(set(x["datetime"].date() for x in data))[-1]`, i.e. the maximum
date. -/
def lastDate (bars : List Bar) : Option ℤ := (bars.map (·.date)).max?

/-- Model of `update_last_day_data`: the 1-minute bars of the last trading day. -/
def lastDayData (bars : List Bar) : List Bar :=
  match lastDate bars with
  | none => []
  | some d => bars.filter (fun b => b.date == d)

/-- Model of `get_market_data`: last-day bars at or after market open. -/
def marketData (bars : List Bar) : List Bar :=
  (lastDayData bars).filter (fun b => decide (marketOpenMinutes ≤ b.time))

/-- Model of `get_premarket_data`: last-day bars strictly before market open. -/
def premarketData (bars : List Bar) : List Bar :=
  (lastDayData bars).filter (fun b => decide (b.time < marketOpenMinutes))

/-- Model of `get_day_high`: the two-decimal rounding of the maximum high over all
last-day bars (premarket included); `None` when there are none. -/
def getDayHigh (bars : List Bar) : Option ℚ :=
  (((lastDayData bars).map (·.high)).max?).map round2

/-- Model of `get_day_low`: the two-decimal rounding of the minimum low over the
market-session bars only; `None` when there are none. -/
def getDayLow (bars : List Bar) : Option ℚ :=
  (((marketData bars).map (·.low)).min?).map round2

/-- Model of `_get_volume_since_4am`: the total volume of the 5-minute bars whose time
of day is at or after 04:00 — over the whole fetched 5-minute series, with no
restriction to the last day. -/
def volumeSince4am (data5m : List Bar) : ℚ :=
  ((data5m.filter (fun b => decide (4 * 60 ≤ b.time))).map (·.volume)).sum

/-- The daily candles retained by `get_key_levels` step 4: volume above
`current_volume` and high above `day_high`. -/
def keyLevelCandidates (currentVolume dayHigh : ℚ) (data1d : List Bar) : List Bar :=
  data1d.filter (fun c => decide (currentVolume < c.volume) && decide (dayHigh < c.high))

/-- The candidate level of a retained daily candle (steps 6–7): its low when
the low is above `day_high`, otherwise its high, rounded to two decimals. -/
def keyLevelOf (dayHigh : ℚ) (c : Bar) : ℚ :=
  if dayHigh < c.low then round2 c.low else round2 c.high

/-- Python `sorted(list(set(xs)))`: the ascending duplicate-free enumeration of the
values occurring in `xs`. -/
def pySortedSet (xs : List ℚ) : List ℚ :=
  xs.dedup.mergeSort (fun a b => decide (a ≤ b))

/-- Model of `ChartAnalyzer.get_key_levels`, steps 1–9 of the source.  Returns `[]`
when `day_high` is `None` or no daily candle qualifies; otherwise the at most
`levelNumber` smallest distinct candidate levels in ascending order. -/
def getKeyLevels (data1m data5m data1d : List Bar) (levelNumber : ℕ) : List ℚ :=
  let currentVolume := volumeSince4am data5m
  match getDayHigh data1m with
  | none => []
  | some dayHigh =>
    let filtered := keyLevelCandidates currentVolume dayHigh data1d
    if filtered.isEmpty then []
    else (pySortedSet (filtered.map (keyLevelOf dayHigh))).take levelNumber

/-- Modelled from the claim's reading of the spec: the volume since 04:00
restricted to the last trading day (the last day of the 1-minute series). -/
def claimVolumeSince4am (data1m data5m : List Bar) : ℚ :=
  match lastDate data1m with
  | none => 0
  | some d =>
    ((data5m.filter (fun b => b.date == d && decide (4 * 60 ≤ b.time))).map (·.volume)).sum

/-- The daily candles that are candidates according to the claim: volume
above the last-day-only 04:00 volume, high above `day_high`. -/
def claimKeyLevelCandidates (data1m data5m data1d : List Bar) : List Bar :=
  match getDayHigh data1m with
  | none => []
  | some dayHigh =>
    keyLevelCandidates (claimVolumeSince4am data1m data5m) dayHigh data1d

/-- A Python/BSON value as stored in the per-symbol records and Mongo
documents. -/
inductive Val where
  | vnull
  | vstr (s : String)
  | vnum (q : ℚ)
  | vbool (b : Bool)
  | vlist (l : List Val)
  | vdict (d : List (String × Val))
deriving Repr

mutual

/-- Structural equality on `Val` (Python `==` as used for dict keys and set
membership on these values). -/
def Val.beq : Val → Val → Bool
  | .vnull, .vnull => true
  | .vstr a, .vstr b => a == b
  | .vnum a, .vnum b => a == b
  | .vbool a, .vbool b => a == b
  | .vlist a, .vlist b => Val.beqList a b
  | .vdict a, .vdict b => Val.beqDict a b
  | _, _ => false

/-- Elementwise `Val.beq` on lists. -/
def Val.beqList : List Val → List Val → Bool
  | [], [] => true
  | a :: as, b :: bs => Val.beq a b && Val.beqList as bs
  | _, _ => false

/-- Keywise `Val.beq` on dict entry lists. -/
def Val.beqDict : List (String × Val) → List (String × Val) → Bool
  | [], [] => true
  | (k, a) :: as, (l, b) :: bs => k == l && Val.beq a b && Val.beqDict as bs
  | _, _ => false

end

/-- Python truthiness of a value: `None`, `""`, `0`, `False` and empty
containers are falsy. -/
def Val.truthy : Val → Bool
  | .vnull => false
  | .vstr s => s != ""
  | .vnum q => decide (q ≠ 0)
  | .vbool b => b
  | .vlist l => !l.isEmpty
  | .vdict d => !d.isEmpty

/-- A Python dict with string keys, as an insertion-ordered association
list. -/
abbrev Doc := List (String × Val)

/-- Dict read (`d[k]` / `d.get(k)`): the first binding of `k`. -/
def dictLookup (d : Doc) (k : String) : Option Val :=
  match d with
  | [] => none
  | (k1, v) :: rest => if k1 = k then some v else dictLookup rest k

/-- Dict write (`d[k] = v`): replace the binding in place when the key is
present, append it otherwise. -/
def dictSet (d : Doc) (k : String) (v : Val) : Doc :=
  if (dictLookup d k).isSome then
    d.map (fun p => if p.1 = k then (k, v) else p)
  else d ++ [(k, v)]

/-- Dict update (`d.update(src)`): write each binding of `src` in order. -/
def dictUpdate (d src : Doc) : Doc :=
  src.foldl (fun acc kv => dictSet acc kv.1 kv.2) d

/-- The value `src` supplies for key `k`: its last binding of `k` (for a
genuine Python dict, which has no duplicate keys, this is plain lookup). -/
def suppliedValue (src : Doc) (k : String) : Option Val :=
  dictLookup src.reverse k

/-- Lookup in a `Val`-keyed map (a Python dict keyed by the records'
`symbol` values), comparing keys with `Val.beq`. -/
def valMapLookup (m : List (Val × Doc)) (k : Val) : Option Doc :=
  match m with
  | [] => none
  | (k1, v) :: rest => if Val.beq k1 k then some v else valMapLookup rest k

/-- Write into a `Val`-keyed map: replace in place or append. -/
def valMapSet (m : List (Val × Doc)) (k : Val) (v : Doc) : List (Val × Doc) :=
  if (valMapLookup m k).isSome then
    m.map (fun p => if Val.beq p.1 k then (k, v) else p)
  else m ++ [(k, v)]

/-- Python `{item['symbol']: item for item in items if item.get('symbol')}`: the
symbol-keyed map of the records that carry a truthy `symbol` value; a later
record with the same symbol overwrites an earlier one. -/
def buildSymbolMap (items : List Doc) : List (Val × Doc) :=
  items.foldl
    (fun m item =>
      match dictLookup item "symbol" with
      | some v => if v.truthy then valMapSet m v item else m
      | none => m)
    []

/-- The body of `SymbolMerger.merge` for one symbol: the all-`None` template
over `all_keys`, the `symbol` assignment, then the fundamentals record and
the price record applied in that order. -/
def mergeOne (allKeys : List String) (mapF mapP : List (Val × Doc))
    (symbol : String) : Doc :=
  let record : Doc := allKeys.map (fun k => (k, Val.vnull))
  let record := dictSet record "symbol" (Val.vstr symbol)
  let record :=
    match valMapLookup mapF (Val.vstr symbol) with
    | some item => dictUpdate record item
    | none => record
  match valMapLookup mapP (Val.vstr symbol) with
  | some item => dictUpdate record item
  | none => record

/-- Model of `SymbolMerger.merge`: one merged record per symbol of the run list. -/
def SymbolMerger.merge (allKeys : List String) (symbols : List String)
    (fundamentals priceResults : List Doc) : List Doc :=
  let mapF := buildSymbolMap fundamentals
  let mapP := buildSymbolMap priceResults
  symbols.map (mergeOne allKeys mapF mapP)

/-- The per-key reading of the claim: the merged record holds, at key `k`,
the value supplied by the price record when it supplies one, else the value
supplied by the fundamentals record, else the `symbol` assignment, else the
all-`None` template over `all_keys`. -/
def mergeLookupSpec (allKeys : List String) (mapF mapP : List (Val × Doc))
    (symbol : String) (k : String) : Option Val :=
  let base : Option Val :=
    if k = "symbol" then some (Val.vstr symbol)
    else if allKeys.contains k then some Val.vnull
    else none
  let fromF : Option Val :=
    match valMapLookup mapF (Val.vstr symbol) with
    | some item => suppliedValue item k
    | none => none
  let fromP : Option Val :=
    match valMapLookup mapP (Val.vstr symbol) with
    | some item => suppliedValue item k
    | none => none
  match fromP with
  | some v => some v
  | none => match fromF with
    | some v => some v
    | none => base

/-- The `fundamentals_of_top_list_symbols` collection: a list of documents in
natural order. -/
abbrev DB := List Doc

/-- Truthiness of `doc.get(k)`: false when the key is absent. -/
def truthyOpt : Option Val → Bool
  | none => false
  | some v => v.truthy

/-- Mongo equality test of an optional document field against the string
`x`: a missing field never matches. -/
def fieldMatches (x : String) (o : Option Val) : Bool :=
  match o with
  | some v => Val.beq v (Val.vstr x)
  | none => false

/-- Mongo `$in` test of an optional document field against a string list. -/
def fieldMatchesAny (xs : List String) (o : Option Val) : Bool :=
  match o with
  | some v => xs.any (fun x => Val.beq v (Val.vstr x))
  | none => false

/-- The find filter `{"symbol": {"$in": symbols}, "today_date": today}`:
the document's `symbol` field equals some symbol of the list and its
`today_date` field equals today (a document missing either field does not
match). -/
def docMatches (symbols : List String) (today : String) (doc : Doc) : Bool :=
  fieldMatchesAny symbols (dictLookup doc "symbol") &&
  fieldMatches today (dictLookup doc "today_date")

/-- Model of `mongo_handler.find_doc(...)` with the gate's symbol/today filter. -/
def findDocs (db : DB) (symbols : List String) (today : String) : List Doc :=
  db.filter (docMatches symbols today)

/-- The upsert key filter `{"symbol": s, "today_date": today}`. -/
def keyFilterMatches (s today : String) (doc : Doc) : Bool :=
  fieldMatches s (dictLookup doc "symbol") &&
  fieldMatches today (dictLookup doc "today_date")

/-- Apply `f` to the first document matching `p` (Mongo `update_one`). -/
def updateFirstDoc (p : Doc → Bool) (f : Doc → Doc) : DB → DB
  | [] => []
  | d :: ds => if p d then f d :: ds else d :: updateFirstDoc p f ds

/-- Model of `mongo_handler.upsert_doc(collection, {"symbol": s, "today_date": today},
new_data)`: `update_one(filter, {"$set": new_data}, upsert=True)` after
`new_data["today_date"] = today` has been added.  When a document matches the
key filter, its fields are merged (`$set`); otherwise a fresh document is
created from the filter's equality fields plus `new_data`.  (The wall-clock
`updated_at` metadata field also written by the source is omitted from the
model.) -/
def upsertDoc (s today : String) (newData : Doc) (db : DB) : DB :=
  let withDate := dictUpdate newData [("today_date", Val.vstr today)]
  if db.any (keyFilterMatches s today) then
    updateFirstDoc (keyFilterMatches s today) (fun d => dictUpdate d withDate) db
  else
    db ++ [dictUpdate [("symbol", Val.vstr s), ("today_date", Val.vstr today)] withDate]

/-- The daily memoization gate (`DataHandler.process_suggestions` /
`process_sec_analysis`), for one analysis-kind `field` (`"suggestion"` or
`"sec_filing_analysis"`).  It reads today's documents for the run symbols,
keeps the symbols that have no document with a truthy `field`, calls the
expensive computation (`analyze`, modelling the text-generation service or
the SEC analyzer) exactly on that list, and upserts each result onto the
`(symbol, today)` document.  The `_get_db_documents` per-run cache is
refreshed after the upserts (`force_refresh=True`), so a later run reads the
updated store; the cache is therefore modelled as a plain re-query. -/
def processGate (field : String) (analyze : String → Val)
    (symbols : List String) (today : String) (db : DB) :
    List String × DB :=
  let documents := findDocs db symbols today
  let toAnalyze := symbols.filter (fun s =>
    !(documents.any (fun doc =>
        fieldMatches s (dictLookup doc "symbol") && truthyOpt (dictLookup doc field))))
  let results := toAnalyze.map (fun s => (s, analyze s))
  let db2 := results.foldl (fun acc r => upsertDoc r.1 today [(field, r.2)] acc) db
  (toAnalyze, db2)

/-- ASCII uppercase of a character, as in Python `str.upper()` on ticker
symbols. -/
def charUpper (c : Char) : Char :=
  if 'a' ≤ c ∧ c ≤ 'z' then Char.ofNat (c.toNat - 32) else c

/-- Python `symbol.upper()` (tickers are ASCII). -/
def strUpper (s : String) : String := String.mk (s.data.map charUpper)

/-- Lookup `cik_map.get(symbol.upper())` over the ticker→CIK map. -/
def cikLookup (cikMap : List (String × String)) (symbol : String) : Option String :=
  match cikMap with
  | [] => none
  | (k, v) :: rest => if k = symbol then some v else cikLookup rest symbol

/-- The already-fetched-and-decoded SEC payload for one symbol: the recent
filings and the `get_metric` extractions for cash, debt and operating cash
flow (the HTTP/JSON/XBRL plumbing is an external interface, §6 of the spec).
A fetch or parse exception is modelled as the whole payload being absent. -/
structure SecData where
  filings : List Filing
  cash : Option ℚ
  debt : Option ℚ
  opCashFlow : Option ℚ
deriving Repr

/-- Millions format `f"${x/1_000_000:.2f}M"` (numeric text rendering is
abstracted to `toString` of the rounded rational). -/
def fmtMillions (q : ℚ) : String := "$" ++ toString (round2 (q / 1000000)) ++ "M"

/-- Render one recommendation reason to its f-string text (interpolated
numbers rendered with `toString`). -/
def renderReason : RecReason → String
  | .noDilutionRisk => "No dilution risk with adequate cash reserves"
  | .veryHighAtm r => "Very high ATM risk: " ++ r
  | .highAtm r => "High ATM risk: " ++ r
  | .mediumHighAtm r => "Medium-High ATM risk: " ++ r
  | .moderate => "Moderate dilution risk"
  | .strongCash q => "Strong cash position relative to debt (" ++ toString q ++ ")"
  | .weakCash q => "Weak cash position relative to debt (" ++ toString q ++ ")"
  | .criticalBurn b => "Critical burn rate of " ++ toString b ++ " months"
  | .warningBurn b => "Concerning burn rate of " ++ toString b ++ " months"
  | .activeShelf => "Active shelf registration increases dilution possibility"
  | .extremelyLowCash c => "Extremely low cash reserves (" ++ fmtMillions c ++ ")"
  | .lowCash c => "Low cash reserves (" ++ fmtMillions c ++ ")"

/-- Render the reason string of `calculate_atm_risk` (interpolated numbers
rendered with `toString`). -/
def renderAtmReason : AtmReason → String
  | .noShelf => "No active shelf registration"
  | .noCash => "No cash reported"
  | .cashBelow5M => "Cash < $5M"
  | .cashBelow10M => "$5M ≤ Cash < $10M"
  | .ratioBelow10 q => "Cash/Debt ratio < 10% (" ++ toString q ++ ")"
  | .ratioBelow25 q => "10% ≤ Cash/Debt ratio < 25% (" ++ toString q ++ ")"
  | .lowBurnRate b => "Burn rate < 6 months (" ++ toString b ++ " months)"
  | .adequate => "Adequate liquidity"

/-- An optional number as a stored value (`None` becomes BSON null). -/
def optVal : Option ℚ → Val
  | none => Val.vnull
  | some q => Val.vnum q

/-- The round trip through the percent string `f"{r:.1%}"` and
`float(s.strip("%")) / 100`: the ratio rounded to one decimal of a percent. -/
def pctRoundTrip (r : ℚ) : ℚ := (round (r * 1000) : ℤ) / 1000

/-- The round trip through the fixed-point string `f"{b:.1f}"` and
`float(s)`: the burn rate rounded to one decimal. -/
def fixed1RoundTrip (b : ℚ) : ℚ := (round (b * 10) : ℤ) / 10

/-- Model of `SECFinancialAnalyzer.get_company_data` on a successfully fetched
payload: the shelf analysis, the key metrics, the risk assessment and the
appended trading-recommendation fields, as one ordered record. -/
def companySuccessDoc (symbol : String) (cik : String) (data : SecData)
    (cutoff : ℚ) (today : String) : Doc :=
  let shelf := shelfFilings data.filings
  let valid := validShelfFilings data.filings cutoff
  let cashRatio : Option ℚ :=
    if qTruthy data.cash && qTruthy data.debt then
      some (data.cash.getD 0 / data.debt.getD 0)
    else none
  let burnRate : Option ℚ :=
    if qTruthy data.cash && qTruthy data.opCashFlow && decide (data.opCashFlow.getD 0 < 0) then
      some (data.cash.getD 0 / |data.opCashFlow.getD 0| * 3)
    else none
  let risk := calcAtmRisk (!valid.isEmpty) data.cash data.debt burnRate
  let recData : RecData :=
    { cash := data.cash
      cashRatio := match cashRatio with
        | some r => if r ≠ 0 then some (pctRoundTrip r) else none
        | none => none
      burnRate := match burnRate with
        | some b => if b ≠ 0 then some (fixed1RoundTrip b) else none
        | none => none
      riskLevel := risk.1
      riskReason := renderAtmReason risk.2
      validShelfCount := valid.length }
  let recs := generateTradingRecommendations recData
  [("Symbol", Val.vstr (strUpper symbol)),
   ("CIK", Val.vstr cik),
   ("Cash (USD)", optVal data.cash),
   ("Cash", Val.vstr (if qTruthy data.cash then fmtMillions (data.cash.getD 0) else "N/A")),
   ("Debt (USD)", optVal data.debt),
   ("Debt", Val.vstr (if qTruthy data.debt then fmtMillions (data.debt.getD 0) else "N/A")),
   ("Cash/Debt Ratio", Val.vstr (match cashRatio with
     | some r => if r ≠ 0 then toString (pctRoundTrip r) else "N/A"
     | none => "N/A")),
   ("Burn Rate (months)", Val.vstr (match burnRate with
     | some b => if b ≠ 0 then toString (fixed1RoundTrip b) else "N/A"
     | none => "N/A")),
   ("Total Shelf Filings", Val.vnum shelf.length),
   ("Valid Shelf Filings", Val.vnum valid.length),
   ("Last Shelf Date", match (valid.map (·.date)).max? with
     | some d => Val.vnum d
     | none => Val.vstr "None"),
   ("ATM Risk Level", Val.vstr risk.1),
   ("Risk Reason", Val.vstr (renderAtmReason risk.2)),
   ("Industry Cash Benchmark", Val.vstr
     (if qTruthy data.cash && decide ((50000000 : ℚ) < data.cash.getD 0) then "Above" else "Below")),
   ("Data Date", Val.vstr today),
   ("Trading Recommendation", Val.vstr recs.overall),
   ("Recommendation Confidence", Val.vstr recs.confidence),
   ("Recommendation Reasons", Val.vlist (recs.reasons.map (fun r => Val.vstr (renderReason r)))),
   ("Trading Strategy", Val.vstr recs.strategy),
   ("Short Squeeze Risk", Val.vstr (recs.shortSqueeze.getD "Unknown"))]

/-- Model of `SECFinancialAnalyzer.get_company_data`: the CIK-missing early return
(`{"Symbol", "Error"}` only), the exception path (`{"Symbol", "Error",
"Data Date"}`, with `errMsg` the stringified exception), and the success
path.  `fetched = none` models a fetch/parse exception. -/
def getCompanyData (symbol : String) (cikMap : List (String × String))
    (fetched : Option SecData) (cutoff : ℚ) (today : String)
    (errMsg : String) : Doc :=
  match cikLookup cikMap (strUpper symbol) with
  | none => [("Symbol", Val.vstr (strUpper symbol)), ("Error", Val.vstr "CIK not found")]
  | some cik =>
    if cik == "" then
      [("Symbol", Val.vstr (strUpper symbol)), ("Error", Val.vstr "CIK not found")]
    else
      match fetched with
      | none =>
        [("Symbol", Val.vstr (strUpper symbol)), ("Error", Val.vstr errMsg),
         ("Data Date", Val.vstr today)]
      | some data => companySuccessDoc symbol cik data cutoff today

/-- The score formula the code actually computes (the amended C1 claim): each
collected indicator enters the sum with its weight squared over the total
weight, because the appended component is already `weight * indicator` and is
then multiplied by `weight / total_weight` again. -/
def doubleWeightedScore (d : ScanData) (currentPrice : Option ℚ)
    (shortInterest : Option ℚ) : ℚ :=
  let cs := indicatorComponents d currentPrice shortInterest
  if cs.isEmpty then 0
  else
    let totalWeight := (cs.map Prod.snd).sum
    (cs.map (fun iw => iw.1 * (iw.2 * iw.2 / totalWeight))).sum

/- ------------------------------------------------------------------ -/
/- Helper lemmas -/
/- ------------------------------------------------------------------ -/

mutual

theorem Val.eq_of_beq : ∀ {a b : Val}, Val.beq a b = true → a = b
  | .vnull, .vnull, _ => rfl
  | .vstr a, .vstr b, h => by
      simp only [Val.beq, beq_iff_eq] at h; exact h ▸ rfl
  | .vnum a, .vnum b, h => by
      simp only [Val.beq, beq_iff_eq] at h; exact h ▸ rfl
  | .vbool a, .vbool b, h => by
      simp only [Val.beq, beq_iff_eq] at h; exact h ▸ rfl
  | .vlist a, .vlist b, h => by
      have := Val.eqList_of_beq (a := a) (b := b) h
      exact this ▸ rfl
  | .vdict a, .vdict b, h => by
      have := Val.eqDict_of_beq (a := a) (b := b) h
      exact this ▸ rfl

theorem Val.eqList_of_beq : ∀ {a b : List Val}, Val.beqList a b = true → a = b
  | [], [], _ => rfl
  | x :: xs, y :: ys, h => by
      simp only [Val.beqList, Bool.and_eq_true] at h
      have h1 := Val.eq_of_beq h.1
      have h2 := Val.eqList_of_beq h.2
      rw [h1, h2]

theorem Val.eqDict_of_beq : ∀ {a b : List (String × Val)}, Val.beqDict a b = true → a = b
  | [], [], _ => rfl
  | (k, x) :: xs, (l, y) :: ys, h => by
      simp only [Val.beqDict, Bool.and_eq_true, beq_iff_eq] at h
      have h1 := Val.eq_of_beq h.1.2
      have h2 := Val.eqDict_of_beq h.2
      rw [h.1.1, h1, h2]

end

mutual

theorem Val.beq_refl : ∀ (a : Val), Val.beq a a = true
  | .vnull => rfl
  | .vstr a => by simp [Val.beq]
  | .vnum a => by simp [Val.beq]
  | .vbool a => by simp [Val.beq]
  | .vlist a => by simpa [Val.beq] using Val.beqList_refl a
  | .vdict a => by simpa [Val.beq] using Val.beqDict_refl a

theorem Val.beqList_refl : ∀ (a : List Val), Val.beqList a a = true
  | [] => rfl
  | x :: xs => by
      simp only [Val.beqList, Bool.and_eq_true]
      exact ⟨Val.beq_refl x, Val.beqList_refl xs⟩

theorem Val.beqDict_refl : ∀ (a : List (String × Val)), Val.beqDict a a = true
  | [] => rfl
  | (k, x) :: xs => by
      simp only [Val.beqDict, Bool.and_eq_true, beq_self_eq_true]
      exact ⟨⟨trivial, Val.beq_refl x⟩, Val.beqDict_refl xs⟩

end

instance : DecidableEq Val := fun a b =>
  decidable_of_iff (Val.beq a b = true) ⟨Val.eq_of_beq, fun h => h ▸ Val.beq_refl a⟩

theorem Val.beq_iff_eq {a b : Val} : Val.beq a b = true ↔ a = b :=
  ⟨Val.eq_of_beq, fun h => h ▸ Val.beq_refl a⟩

/- ------------------------------------------------------------------ -/
/- C1: composite squeeze score -/
/- ------------------------------------------------------------------ -/

/-- C1, counterexample: on a record where all four indicators are computable
and every indicator equals 1 (float 500k < 1M, float ratio 0.25 < 0.4,
short ratio 0.4 > 0.3, cash/market-cap 0.05 < 0.1), the claimed renormalized
weighted sum is exactly 1, but `calculate_squeeze_risk` produces 0.34: each
appended component is already `weight * indicator` and is multiplied by
`weight / total_weight` once more. -/
theorem c1_counterexample :
    squeezeScore ⟨some (some 500000), some (some 2000000), some (some 100000), none, none⟩
        (some 1) (some 200000) = 17/50 ∧
    claimRenormalizedScore ⟨some (some 500000), some (some 2000000), some (some 100000), none, none⟩
        (some 1) (some 200000) = 1 ∧
    (17 : ℚ)/50 ≠ 1 := by
  refine ⟨?_, ?_, by norm_num⟩
  · simp [squeezeScore, squeezeComponents, cellLt, pdDivLt, pdDivGt, cellMul, bq]
    norm_num
  · simp [claimRenormalizedScore, indicatorComponents, cellLt, pdDivLt, pdDivGt, cellMul, bq]
    norm_num

/-- C1, amended: `squeeze_score` is the sum, over the collected indicators,
of `indicator · weight² / total_weight` (double weighting), not the
renormalized weighted sum; in particular, when all four indicators are
computable and every indicator equals 1 the score is exactly 0.34. -/
theorem c1_amended :
    (∀ (d : ScanData) (p si : Option ℚ),
      squeezeScore d p si = doubleWeightedScore d p si) ∧
    (∀ (f o c : Cell) (pr si : ℚ) (shelf burn : Col),
      cellLt f 1000000 = true →
      pdDivLt f o (2/5) = true →
      pdDivGt (some si) f (3/10) = true →
      pdDivLt c (cellMul o pr) (1/10) = true →
      squeezeScore ⟨some f, some o, some c, shelf, burn⟩ (some pr) (some si) = 17/50) := by
  constructor
  · intro d p si
    obtain ⟨f, o, c, shelf, burn⟩ := d
    cases f <;> cases o <;> cases c <;> cases p <;> cases si <;>
      simp [squeezeScore, doubleWeightedScore, squeezeComponents, indicatorComponents] <;>
      ring_nf
  · intro f o c pr si shelf burn h1 h2 h3 h4
    simp [squeezeScore, squeezeComponents, h1, h2, h3, h4, bq]
    simp only [one_div] at h4
    rw [if_pos h4]
    norm_num

/-- C1 witness: the amended theorem applied at the all-indicators-1 record. -/
theorem c1_amended_witness :
    squeezeScore ⟨some (some 500000), some (some 2000000), some (some 100000), none, none⟩
        (some 1) (some 200000) = 17/50 :=
  c1_amended.2 (some 500000) (some 2000000) (some 100000) 1 200000 none none
    (by norm_num [cellLt]) (by norm_num [pdDivLt]) (by norm_num [pdDivGt])
    (by norm_num [pdDivLt, cellMul])

/- ------------------------------------------------------------------ -/
/- C2: monotone escalation of the recommendation cascade -/
/- ------------------------------------------------------------------ -/

/-- C2, counterexample: on an analysis record with risk level `"High"`
(baseline stance `"Sell/Short-term only"`) and a cash/debt ratio of 1.6 —
reachable from `get_company_data` with cash $8M, debt $5M — the cash/debt-ratio
rule replaces the stricter stance with the looser `"Hold/Accumulate"`. -/
theorem c2_counterexample :
    (baselineStep ⟨some 8000000, some (8/5), none, "High", "$5M ≤ Cash < $10M", 1⟩
        recInit).overall = "Sell/Short-term only" ∧
    (cashRatioStep ⟨some 8000000, some (8/5), none, "High", "$5M ≤ Cash < $10M", 1⟩
        (baselineStep ⟨some 8000000, some (8/5), none, "High", "$5M ≤ Cash < $10M", 1⟩
          recInit)).overall = "Hold/Accumulate" ∧
    stanceRank "Hold/Accumulate" < stanceRank "Sell/Short-term only" := by
  refine ⟨?_, ?_, by decide⟩
  · simp [baselineStep, recInit, qTruthy]
  · simp [baselineStep, cashRatioStep, recInit, qTruthy]
    norm_num

/-- Any stance other than `"Avoid/Sell"` has rank at most 3. -/
theorem stanceRank_le_three {s : String} (h : s ≠ "Avoid/Sell") :
    stanceRank s ≤ 3 := by
  unfold stanceRank
  rw [if_neg (by simpa using h)]
  split_ifs <;> omega

/-- Every stance has rank at most 4. -/
theorem stanceRank_le_four (s : String) : stanceRank s ≤ 4 := by
  unfold stanceRank
  split_ifs <;> omega

/-- C2, amended: the cascade is not monotone (see the counterexample); what
does hold is that the shelf rule never changes the stance, and both the
critical-burn-rate branch (`burn_rate < 3`) and the very-low-cash branch
(`cash < $5M`) only ever move the stance to one of equal or higher
strictness rank. -/
theorem c2_amended :
    (∀ (d : RecData) (r : RecState), (shelfStep d r).overall = r.overall) ∧
    (∀ (d : RecData) (r : RecState) (b : ℚ), d.burnRate = some b → b < 3 →
      stanceRank r.overall ≤ stanceRank (burnRateStep d r).overall) ∧
    (∀ (d : RecData) (r : RecState) (c : ℚ), d.cash = some c → c ≠ 0 → c < 5000000 →
      stanceRank r.overall ≤ stanceRank (absCashStep d r).overall) := by
  refine ⟨?_, ?_, ?_⟩
  · intro d r
    unfold shelfStep
    dsimp only
    split_ifs <;> rfl
  · intro d r b hb hlt
    unfold burnRateStep
    rw [hb]
    simp only
    rw [if_pos hlt]
    by_cases h : strHasSub r.overall "Avoid" = true
    · simp [h]
    · have hne : r.overall ≠ "Avoid/Sell" := by
        intro he
        rw [he] at h
        exact h (by decide)
      simp [h]
      calc stanceRank r.overall ≤ 3 := stanceRank_le_three hne
        _ = stanceRank "Reduce/Avoid" := by decide
  · intro d r c hc hc0 hlt
    unfold absCashStep
    have ht : qTruthy d.cash = true := by simp [hc, qTruthy, hc0]
    rw [if_pos ht, hc]
    simp only [Option.getD_some]
    rw [if_pos hlt]
    by_cases h : strHasSub r.overall "Avoid" = true
    · simp [h]
    · simp [h]
      calc stanceRank r.overall ≤ 4 := stanceRank_le_four r.overall
        _ = stanceRank "Avoid/Sell" := by decide

/-- C2 witness: the amended theorem applied at a record with burn rate 2 and
cash $4M, starting from the default recommendation. -/
theorem c2_amended_witness :
    (shelfStep ⟨some 4000000, none, some 2, "x", "y", 0⟩ recInit).overall = recInit.overall ∧
    stanceRank recInit.overall ≤
      stanceRank (burnRateStep ⟨some 4000000, none, some 2, "x", "y", 0⟩ recInit).overall ∧
    stanceRank recInit.overall ≤
      stanceRank (absCashStep ⟨some 4000000, none, some 2, "x", "y", 0⟩ recInit).overall :=
  ⟨c2_amended.1 ⟨some 4000000, none, some 2, "x", "y", 0⟩ recInit,
   c2_amended.2.1 ⟨some 4000000, none, some 2, "x", "y", 0⟩ recInit 2 rfl (by norm_num),
   c2_amended.2.2 ⟨some 4000000, none, some 2, "x", "y", 0⟩ recInit 4000000 rfl
     (by norm_num) (by norm_num)⟩

/- ------------------------------------------------------------------ -/
/- C3: scanner ATM urgency -/
/- ------------------------------------------------------------------ -/

/-- C3, counterexample: a shelf date one year in the past (day 0, now day
365) and burn rate 1.4 months.  The claim's 3-year-window reading asks for
`1.4 < (3·365 − 365)/30 = 24.33…`, hence urgency 1; the code compares
against `(shelf − now)/30 = −12.1(6)` and yields 0. -/
theorem c3_counterexample :
    scannerAtmUrgency (some (some 0)) (some (some (7/5))) 365 = 0 ∧
    claimAtmUrgency (some (some 0)) (some (some (7/5))) 365 = 1 := by
  constructor
  · simp [scannerAtmUrgency]
    norm_num
  · simp [claimAtmUrgency]
    norm_num

/-- C3, amended: `atm_urgency` is 1 iff a parsable burn rate and shelf date
are both present and the burn rate is strictly less than
`⌊shelf date − now⌋ / 30` — the raw (usually negative) day distance to the
shelf date with no 3-year term; consequently a shelf date in the past with a
nonnegative burn rate always yields urgency 0, and a missing or unparsable
burn rate or shelf date yields 0. -/
theorem c3_amended :
    (∀ (shelf burn : Col) (now : ℚ),
      (scannerAtmUrgency shelf burn now = 1 ↔
        ∃ d b, shelf = some (some d) ∧ burn = some (some b) ∧
          b < ((⌊d - now⌋ : ℤ) : ℚ) / 30)) ∧
    (∀ (d b now : ℚ), d ≤ now → 0 ≤ b →
      scannerAtmUrgency (some (some d)) (some (some b)) now = 0) := by
  constructor
  · intro shelf burn now
    match shelf, burn with
    | none, _ => simp [scannerAtmUrgency]
    | some none, _ => simp [scannerAtmUrgency]
    | some (some d), none => simp [scannerAtmUrgency]
    | some (some d), some none => simp [scannerAtmUrgency]
    | some (some d), some (some b) =>
      simp only [scannerAtmUrgency, Option.some.injEq]
      constructor
      · intro h
        split_ifs at h with hc
        · exact ⟨d, b, rfl, rfl, hc⟩
        · exact absurd h (by norm_num)
      · rintro ⟨d1, b1, hd, hb, hlt⟩
        subst hd
        subst hb
        rw [if_pos hlt]
  · intro d b now hdn hb
    have hfloor : (⌊d - now⌋ : ℤ) ≤ 0 := by
      have : d - now ≤ 0 := by linarith
      exact Int.floor_nonpos this
    have : ((⌊d - now⌋ : ℤ) : ℚ) / 30 ≤ 0 := by
      apply div_nonpos_of_nonpos_of_nonneg
      · exact_mod_cast hfloor
      · norm_num
    simp only [scannerAtmUrgency]
    rw [if_neg (by linarith)]

/-- C3 witness: the amended theorem applied at the one-year-old shelf date. -/
theorem c3_amended_witness :
    scannerAtmUrgency (some (some 0)) (some (some (7/5))) 365 = 0 :=
  c3_amended.2 0 (7/5) 365 (by norm_num) (by norm_num)

/- ------------------------------------------------------------------ -/
/- C4: risk level "None" iff no valid shelf filing -/
/- ------------------------------------------------------------------ -/

/-- C4: `calculate_atm_risk` returns level `"None"` exactly when the symbol
has no valid shelf filing (no shelf-form filing dated after the 3-year
cutoff), whatever the cash, debt and burn-rate values. -/
theorem c4_none_iff_no_valid_shelf :
    ∀ (filings : List Filing) (cutoff : ℚ) (cash debt burn : Option ℚ),
      ((calcAtmRisk (!(validShelfFilings filings cutoff).isEmpty) cash debt burn).1 = "None"
        ↔ validShelfFilings filings cutoff = []) := by
  intro filings cutoff cash debt burn
  rcases h : (validShelfFilings filings cutoff).isEmpty with hf | ht
  · rw [List.isEmpty_eq_false] at h
    constructor
    · intro hnone
      exfalso
      unfold calcAtmRisk at hnone
      simp only [Bool.not_true, Bool.false_eq_true, if_false] at hnone
      split_ifs at hnone <;> simp_all
    · intro he
      exact absurd he h
  · rw [List.isEmpty_iff] at h
    simp [calcAtmRisk, h]

/- ------------------------------------------------------------------ -/
/- C9: debt-free cash-rich companies are classified "High" -/
/- ------------------------------------------------------------------ -/

/-- C9: with at least one valid shelf filing, cash of at least $10M, and no
reported debt (missing or zero), `calculate_atm_risk` defaults the cash/debt
ratio to 0 rather than skipping the ratio rule, so the result is
`("High", Cash/Debt ratio < 10% (0))`, never `"Medium"`. -/
theorem c9_debt_free_large_cash_high :
    ∀ (filings : List Filing) (cutoff : ℚ) (c : ℚ) (debt burn : Option ℚ),
      validShelfFilings filings cutoff ≠ [] →
      (10000000 : ℚ) ≤ c →
      (debt = none ∨ debt = some 0) →
      calcAtmRisk (!(validShelfFilings filings cutoff).isEmpty) (some c) debt burn
          = ("High", AtmReason.ratioBelow10 0) ∧
      (calcAtmRisk (!(validShelfFilings filings cutoff).isEmpty) (some c) debt burn).1
          ≠ "Medium" := by
  intro filings cutoff c debt burn hshelf hc hdebt
  have hne : (validShelfFilings filings cutoff).isEmpty = false := by
    rw [List.isEmpty_eq_false]
    exact hshelf
  have hct : qTruthy (some c) = true := by
    simp [qTruthy]
    intro h
    rw [h] at hc
    norm_num at hc
  have hdt : qTruthy debt = false := by
    rcases hdebt with h | h <;> simp [h, qTruthy]
  have hmain : calcAtmRisk (!(validShelfFilings filings cutoff).isEmpty) (some c) debt burn
      = ("High", AtmReason.ratioBelow10 0) := by
    unfold calcAtmRisk
    rw [hne]
    simp only [Bool.not_false, if_true, hct, hdt, Bool.and_false, Bool.false_eq_true,
      if_false, Bool.not_true, Option.getD_some]
    rw [if_neg (not_lt.mpr (by linarith : (5000000 : ℚ) ≤ c)),
      if_neg (not_lt.mpr (by linarith : (10000000 : ℚ) ≤ c)),
      if_pos (by norm_num : (0 : ℚ) < 1/10)]
  exact ⟨hmain, by rw [hmain]; simp⟩

/-- C9 witness: a single valid `S-3` filing, cash exactly $10M, no debt. -/
theorem c9_witness :
    calcAtmRisk (!(validShelfFilings [⟨"S-3", 10⟩] 0).isEmpty) (some 10000000) none none
        = ("High", AtmReason.ratioBelow10 0) :=
  (c9_debt_free_large_cash_high [⟨"S-3", 10⟩] 0 10000000 none none
    (by simp [validShelfFilings, shelfFilings, shelfForms])
    (by norm_num) (Or.inl rfl)).1

/- ------------------------------------------------------------------ -/
/- C5: day_low from market-session bars only -/
/- ------------------------------------------------------------------ -/

/-- C5: `day_low` is the (two-decimal-rounded) minimum low over exactly the
last-day bars at or after market open, null when there is no such bar, while
`day_high` ranges over all last-day bars premarket included; and inserting a
premarket bar of the last day — however low its low — never changes
`day_low`. -/
theorem c5_day_low_market_session_only :
    (∀ (bars : List Bar) (d : ℤ), lastDate bars = some d →
      getDayLow bars =
        (((bars.filter (fun x => x.date == d && decide (marketOpenMinutes ≤ x.time))).map
            (·.low)).min?).map round2 ∧
      getDayHigh bars =
        (((bars.filter (fun x => x.date == d)).map (·.high)).max?).map round2) ∧
    (∀ bars : List Bar, getDayLow bars = none ↔ marketData bars = []) ∧
    (∀ (bars : List Bar) (b : Bar), lastDate bars = some b.date →
      b.time < marketOpenMinutes → getDayLow (b :: bars) = getDayLow bars) := by
  have hld : ∀ (bars : List Bar) (d : ℤ), lastDate bars = some d →
      lastDayData bars = bars.filter (fun x => x.date == d) := by
    intro bars d h
    unfold lastDayData
    rw [h]
  refine ⟨?_, ?_, ?_⟩
  · intro bars d h
    constructor
    · unfold getDayLow marketData
      rw [hld bars d h, List.filter_filter]
      simp [Bool.and_comm]
    · unfold getDayHigh
      rw [hld bars d h]
  · intro bars
    unfold getDayLow
    simp [List.min?_eq_none_iff]
  · intro bars b hlast htime
    have hcons : lastDate (b :: bars) = some b.date := by
      unfold lastDate at hlast ⊢
      simp only [List.map_cons, List.max?_cons, hlast]
      simp
    have h1 : lastDayData (b :: bars) = b :: lastDayData bars := by
      unfold lastDayData
      rw [hcons, hlast]
      simp
    unfold getDayLow marketData
    rw [h1]
    simp only [List.filter_cons]
    rw [if_neg (by simpa using not_le.mpr htime)]

/-- C5 witness: the spec's own example — premarket low 1.00 below the market
low 1.50 does not change `day_low`. -/
theorem c5_witness :
    getDayLow [⟨0, 500, 1, 1, 1, 1, 5⟩, ⟨0, 600, 2, 2, 3/2, 2, 10⟩]
      = getDayLow [⟨0, 600, 2, 2, 3/2, 2, 10⟩] :=
  c5_day_low_market_session_only.2.2 [⟨0, 600, 2, 2, 3/2, 2, 10⟩] ⟨0, 500, 1, 1, 1, 1, 5⟩
    (by simp [lastDate]) (by norm_num [marketOpenMinutes])

/- ------------------------------------------------------------------ -/
/- C6: key levels -/
/- ------------------------------------------------------------------ -/

/-- Python `sorted(list(set(xs)))` is strictly ascending. -/
theorem pySortedSet_sorted_lt (xs : List ℚ) : List.Sorted (· < ·) (pySortedSet xs) := by
  have hperm : (pySortedSet xs).Perm xs.dedup := List.mergeSort_perm xs.dedup _
  have hnodup : (pySortedSet xs).Nodup :=
    List.Nodup.perm (List.nodup_dedup xs) hperm.symm
  have hsorted : List.Pairwise (fun a b : ℚ => a ≤ b) (pySortedSet xs) := by
    have := @List.sorted_mergeSort ℚ (fun a b : ℚ => decide (a ≤ b))
      (fun a b c hab hbc => by
        simp only [decide_eq_true_eq] at *
        exact le_trans hab hbc)
      (fun a b => by
        simp only [Bool.or_eq_true, decide_eq_true_eq]
        exact le_total a b)
      xs.dedup
    exact this.imp (fun h => of_decide_eq_true h)
  have := hsorted.and hnodup
  exact this.imp (fun h => lt_of_le_of_ne h.1 h.2)

/-- In a strictly sorted list, the `take` prefix is downward closed. -/
theorem mem_take_of_sorted_lt {l : List ℚ} {n : ℕ} {x y : ℚ}
    (hs : List.Sorted (· < ·) l) (hx : x ∈ l.take n) (hy : y ∈ l) (hyx : y < x) :
    y ∈ l.take n := by
  induction l generalizing n with
  | nil => simp at hy
  | cons a t ih =>
    cases n with
    | zero => simp at hx
    | succ n =>
      simp only [List.take_succ_cons] at hx ⊢
      rcases List.mem_cons.mp hy with rfl | hyt
      · exact List.mem_cons_self _ _
      · rcases List.mem_cons.mp hx with rfl | hxt
        · exact absurd hyx (not_lt.mpr (le_of_lt (List.rel_of_sorted_cons hs y hyt)))
        · exact List.mem_cons.mpr (Or.inr (ih hs.of_cons hxt hyt))

/-- C6, amended: over the whole fetched 5-minute series (the code does not
restrict the 04:00 volume to the last day), `get_key_levels` returns a
strictly ascending list of at most `level_number` candidate levels — the
empty list when `day_high` is null or no daily candle qualifies, every
returned value a candidate level, and the returned prefix downward closed
among the candidate levels (so it consists of the smallest ones). -/
theorem c6_amended :
    (∀ (m1 m5 d1 : List Bar) (n : ℕ),
      List.Sorted (· < ·) (getKeyLevels m1 m5 d1 n) ∧
      (getKeyLevels m1 m5 d1 n).length ≤ n) ∧
    (∀ (m1 m5 d1 : List Bar) (n : ℕ),
      getDayHigh m1 = none → getKeyLevels m1 m5 d1 n = []) ∧
    (∀ (m1 m5 d1 : List Bar) (n : ℕ) (dayHigh : ℚ), getDayHigh m1 = some dayHigh →
      (keyLevelCandidates (volumeSince4am m5) dayHigh d1 = [] →
        getKeyLevels m1 m5 d1 n = []) ∧
      (∀ x ∈ getKeyLevels m1 m5 d1 n,
        x ∈ (keyLevelCandidates (volumeSince4am m5) dayHigh d1).map (keyLevelOf dayHigh)) ∧
      (∀ x ∈ getKeyLevels m1 m5 d1 n,
        ∀ y ∈ (keyLevelCandidates (volumeSince4am m5) dayHigh d1).map (keyLevelOf dayHigh),
          y < x → y ∈ getKeyLevels m1 m5 d1 n)) := by
  refine ⟨?_, ?_, ?_⟩
  · intro m1 m5 d1 n
    unfold getKeyLevels
    cases h : getDayHigh m1 with
    | none => simp
    | some dayHigh =>
      simp only
      by_cases he : (keyLevelCandidates (volumeSince4am m5) dayHigh d1).isEmpty
      · simp [he]
      · rw [if_neg (by simp [he])]
        constructor
        · exact List.Pairwise.sublist (List.take_sublist _ _) (pySortedSet_sorted_lt _)
        · exact List.length_take_le _ _
  · intro m1 m5 d1 n h
    unfold getKeyLevels
    rw [h]
  · intro m1 m5 d1 n dayHigh h
    refine ⟨?_, ?_, ?_⟩
    · intro hcand
      unfold getKeyLevels
      rw [h]
      simp [hcand]
    · intro x hx
      unfold getKeyLevels at hx
      rw [h] at hx
      simp only at hx
      by_cases he : (keyLevelCandidates (volumeSince4am m5) dayHigh d1).isEmpty
      · simp [he] at hx
      · rw [if_neg (by simp [he])] at hx
        have h1 : x ∈ pySortedSet
            ((keyLevelCandidates (volumeSince4am m5) dayHigh d1).map (keyLevelOf dayHigh)) :=
          List.take_subset _ _ hx
        have h2 := (List.mergeSort_perm _ _).mem_iff.mp h1
        exact (List.mem_dedup).mp h2
    · intro x hx y hy hyx
      unfold getKeyLevels at hx ⊢
      rw [h] at hx ⊢
      simp only at hx ⊢
      by_cases he : (keyLevelCandidates (volumeSince4am m5) dayHigh d1).isEmpty
      · simp [he] at hx
      · rw [if_neg (by simp [he])] at hx ⊢
        have hym : y ∈ pySortedSet
            ((keyLevelCandidates (volumeSince4am m5) dayHigh d1).map (keyLevelOf dayHigh)) := by
          apply (List.mergeSort_perm _ _).mem_iff.mpr
          exact (List.mem_dedup).mpr hy
        exact mem_take_of_sorted_lt (pySortedSet_sorted_lt _) hx hym hyx

/-- C6, counterexample: the 5-minute series has a bar at 05:00 on an earlier
day with volume 100 and one at 05:00 on the last day with volume 50, so the
code's `current_volume` is 150 while the claim's last-day-only volume is 50;
the daily candle with volume 120 and high 20 (above `day_high` 10) is a
candidate under the claim (its level would be its low 15), yet the code
returns no key level at all. -/
theorem c6_counterexample :
    getDayHigh [⟨1, 600, 9, 10, 9, 9, 50⟩] = some 10 ∧
    volumeSince4am [⟨0, 300, 1, 1, 1, 1, 100⟩, ⟨1, 300, 1, 1, 1, 1, 50⟩] = 150 ∧
    claimVolumeSince4am [⟨1, 600, 9, 10, 9, 9, 50⟩]
      [⟨0, 300, 1, 1, 1, 1, 100⟩, ⟨1, 300, 1, 1, 1, 1, 50⟩] = 50 ∧
    claimKeyLevelCandidates [⟨1, 600, 9, 10, 9, 9, 50⟩]
      [⟨0, 300, 1, 1, 1, 1, 100⟩, ⟨1, 300, 1, 1, 1, 1, 50⟩]
      [⟨0, 0, 16, 20, 15, 18, 120⟩] = [⟨0, 0, 16, 20, 15, 18, 120⟩] ∧
    getKeyLevels [⟨1, 600, 9, 10, 9, 9, 50⟩]
      [⟨0, 300, 1, 1, 1, 1, 100⟩, ⟨1, 300, 1, 1, 1, 1, 50⟩]
      [⟨0, 0, 16, 20, 15, 18, 120⟩] 5 = [] := by
  refine ⟨?_, ?_, ?_, ?_, ?_⟩
  · norm_num [getDayHigh, lastDayData, lastDate, round2]
  · norm_num [volumeSince4am]
  · norm_num [claimVolumeSince4am, lastDate]
  · norm_num [claimKeyLevelCandidates, claimVolumeSince4am, getDayHigh, lastDayData,
      lastDate, keyLevelCandidates, round2]
  · norm_num [getKeyLevels, getDayHigh, lastDayData, lastDate, volumeSince4am,
      keyLevelCandidates, round2]

/-- C6 witness: the amended theorem applied at the counterexample input. -/
theorem c6_witness :
    getKeyLevels [⟨1, 600, 9, 10, 9, 9, 50⟩]
      [⟨0, 300, 1, 1, 1, 1, 100⟩, ⟨1, 300, 1, 1, 1, 1, 50⟩]
      [⟨0, 0, 16, 20, 15, 18, 120⟩] 5 = [] :=
  (c6_amended.2.2 [⟨1, 600, 9, 10, 9, 9, 50⟩]
      [⟨0, 300, 1, 1, 1, 1, 100⟩, ⟨1, 300, 1, 1, 1, 1, 50⟩]
      [⟨0, 0, 16, 20, 15, 18, 120⟩] 5 10
      (by norm_num [getDayHigh, lastDayData, lastDate, round2])).1
    (by norm_num [keyLevelCandidates, volumeSince4am])

/- ------------------------------------------------------------------ -/
/- C7: merge determinism and template/overwrite characterization -/
/- ------------------------------------------------------------------ -/

theorem dictLookup_cons (a : String) (b : Val) (l : Doc) (k : String) :
    dictLookup ((a, b) :: l) k = if a = k then some b else dictLookup l k := rfl

theorem dictLookup_append (d1 d2 : Doc) (k : String) :
    dictLookup (d1 ++ d2) k =
      match dictLookup d1 k with
      | some v => some v
      | none => dictLookup d2 k := by
  induction d1 with
  | nil => simp [dictLookup]
  | cons p rest ih =>
    obtain ⟨k0, v0⟩ := p
    by_cases h : k0 = k
    · simp [dictLookup_cons, h]
    · simp [List.cons_append, dictLookup_cons, h, ih]

theorem dictLookup_mapSet (d : Doc) (k : String) (v : Val) (k1 : String) :
    dictLookup (d.map (fun p => if p.1 = k then (k, v) else p)) k1 =
      if k1 = k then (if (dictLookup d k).isSome then some v else none)
      else dictLookup d k1 := by
  induction d with
  | nil => simp [dictLookup]
  | cons p rest ih =>
    obtain ⟨k0, v0⟩ := p
    simp only [List.map_cons]
    by_cases h0 : k0 = k
    · subst h0
      rw [if_pos rfl]
      by_cases h1 : k1 = k0
      · subst h1
        simp [dictLookup_cons]
      · have hne : ¬(k0 = k1) := fun he => h1 he.symm
        simp [dictLookup_cons, h1, hne, ih]
    · rw [if_neg h0]
      by_cases h1 : k1 = k0
      · subst h1
        have hne : ¬(k1 = k) := fun he => h0 (he ▸ rfl)
        simp [dictLookup_cons, hne]
      · have hne : ¬(k0 = k1) := fun he => h1 he.symm
        simp [dictLookup_cons, h1, hne, h0, ih]

theorem dictLookup_dictSet (d : Doc) (k : String) (v : Val) (k1 : String) :
    dictLookup (dictSet d k v) k1 = if k1 = k then some v else dictLookup d k1 := by
  unfold dictSet
  by_cases hs : (dictLookup d k).isSome
  · rw [if_pos hs, dictLookup_mapSet]
    by_cases h1 : k1 = k
    · simp [h1, hs]
    · simp [h1]
  · rw [if_neg hs, dictLookup_append]
    have hnone : dictLookup d k = none := Option.not_isSome_iff_eq_none.mp hs
    by_cases h1 : k1 = k
    · subst h1
      rw [hnone]
      simp [dictLookup_cons]
    · have hne : ¬(k = k1) := fun he => h1 he.symm
      rcases h2 : dictLookup d k1 with _ | v1
      · simp [h2, dictLookup_cons, hne, dictLookup, h1]
      · simp [h2, h1]

theorem dictLookup_dictUpdate (d src : Doc) (k : String) :
    dictLookup (dictUpdate d src) k =
      match suppliedValue src k with
      | some v => some v
      | none => dictLookup d k := by
  induction src generalizing d with
  | nil => simp [dictUpdate, suppliedValue, dictLookup]
  | cons p rest ih =>
    obtain ⟨k0, v0⟩ := p
    have hstep : dictUpdate d ((k0, v0) :: rest) = dictUpdate (dictSet d k0 v0) rest := by
      simp [dictUpdate]
    rw [hstep, ih]
    have hsup : suppliedValue ((k0, v0) :: rest) k =
        match suppliedValue rest k with
        | some v => some v
        | none => if k = k0 then some v0 else none := by
      unfold suppliedValue
      simp only [List.reverse_cons]
      rw [dictLookup_append]
      rcases h : dictLookup rest.reverse k with _ | v1
      · by_cases h1 : k0 = k
        · subst h1
          simp [dictLookup_cons]
        · have hne : ¬(k = k0) := fun he => h1 he.symm
          simp [dictLookup_cons, h1, hne, dictLookup]
      · simp
    rw [hsup]
    rcases h : suppliedValue rest k with _ | v1
    · simp only
      rw [dictLookup_dictSet]
      by_cases hk : k = k0 <;> simp [hk]
    · simp

theorem dictLookup_template (allKeys : List String) (k : String) :
    dictLookup (allKeys.map (fun k0 => (k0, Val.vnull))) k =
      if allKeys.contains k then some Val.vnull else none := by
  induction allKeys with
  | nil => simp [dictLookup]
  | cons k0 rest ih =>
    simp only [List.map_cons]
    by_cases h : k0 = k
    · simp [dictLookup_cons, h, List.contains_cons]
    · have hbeq : (k == k0) = false := by
        simp only [beq_eq_false_iff_ne, ne_eq]
        exact fun he => h he.symm
      have hne : ¬(k = k0) := fun he => h he.symm
      simp [dictLookup_cons, h, ih, List.contains_cons, hbeq, hne]


/-- C7: the symbol merge is deterministic — merging the same symbol list and
partial-record lists twice yields identical output (the merge is a pure
function) — and each output record is built from the all-`None` template over
the known field superset, with the `symbol` assignment, the fundamentals
record and then the price record each overwriting only the keys it
supplies. -/
theorem c7_merge_deterministic :
    ∀ (allKeys symbols : List String) (fundamentals priceResults : List Doc),
      SymbolMerger.merge allKeys symbols fundamentals priceResults
        = SymbolMerger.merge allKeys symbols fundamentals priceResults ∧
      SymbolMerger.merge allKeys symbols fundamentals priceResults
        = symbols.map (mergeOne allKeys (buildSymbolMap fundamentals)
            (buildSymbolMap priceResults)) ∧
      (∀ (symbol k : String),
        dictLookup (mergeOne allKeys (buildSymbolMap fundamentals)
            (buildSymbolMap priceResults) symbol) k
          = mergeLookupSpec allKeys (buildSymbolMap fundamentals)
              (buildSymbolMap priceResults) symbol k) := by
  intro allKeys symbols fundamentals priceResults
  refine ⟨rfl, rfl, ?_⟩
  intro symbol k
  unfold mergeOne mergeLookupSpec
  cases hP : valMapLookup (buildSymbolMap priceResults) (Val.vstr symbol) with
  | none =>
    cases hF : valMapLookup (buildSymbolMap fundamentals) (Val.vstr symbol) with
    | none =>
      simp only
      rw [dictLookup_dictSet, dictLookup_template]
    | some itemF =>
      simp only
      rw [dictLookup_dictUpdate, dictLookup_dictSet, dictLookup_template]
  | some itemP =>
    cases hF : valMapLookup (buildSymbolMap fundamentals) (Val.vstr symbol) with
    | none =>
      simp only
      rw [dictLookup_dictUpdate, dictLookup_dictSet, dictLookup_template]
    | some itemF =>
      simp only
      rw [dictLookup_dictUpdate, dictLookup_dictUpdate, dictLookup_dictSet,
        dictLookup_template]

/- ------------------------------------------------------------------ -/
/- C8 / C10: the daily memoization gate and the SEC error records -/
/- ------------------------------------------------------------------ -/

theorem withDate_eq (field : String) (v : Val) (today : String)
    (hf2 : field ≠ "today_date") :
    dictUpdate [(field, v)] [("today_date", Val.vstr today)]
      = [(field, v), ("today_date", Val.vstr today)] := by
  simp [dictUpdate, dictSet, dictLookup, hf2]

theorem suppliedValue_withDate (field : String) (v : Val) (today : String)
    (hf2 : field ≠ "today_date") (k : String) :
    suppliedValue [(field, v), ("today_date", Val.vstr today)] k
      = if k = "today_date" then some (Val.vstr today)
        else if k = field then some v else none := by
  unfold suppliedValue
  by_cases h1 : k = "today_date"
  · subst h1
    simp [dictLookup]
  · by_cases h2 : k = field
    · subst h2
      have : ¬("today_date" = k) := fun he => h1 he.symm
      simp [dictLookup, this, h1]
    · have e1 : ¬("today_date" = k) := fun he => h1 he.symm
      have e2 : ¬(field = k) := fun he => h2 he.symm
      simp [dictLookup, e1, e2, h1, h2]

theorem lookup_setPayload (d : Doc) (field : String) (v : Val) (today : String)
    (hf2 : field ≠ "today_date") (k : String) :
    dictLookup (dictUpdate d [(field, v), ("today_date", Val.vstr today)]) k
      = if k = "today_date" then some (Val.vstr today)
        else if k = field then some v else dictLookup d k := by
  rw [dictLookup_dictUpdate, suppliedValue_withDate field v today hf2]
  by_cases h1 : k = "today_date"
  · simp [h1]
  · by_cases h2 : k = field <;> simp [h1, h2, hf2]

theorem keyFilterMatches_update (d : Doc) (s1 today field : String) (v : Val)
    (hf1 : field ≠ "symbol") (hf2 : field ≠ "today_date") :
    keyFilterMatches s1 today (dictUpdate d [(field, v), ("today_date", Val.vstr today)])
      = fieldMatches s1 (dictLookup d "symbol") := by
  unfold keyFilterMatches
  rw [lookup_setPayload d field v today hf2 "symbol",
    lookup_setPayload d field v today hf2 "today_date"]
  have h1 : ¬("symbol" = "today_date") := by decide
  have h2 : ¬("symbol" = field) := fun he => hf1 he.symm
  simp [h1, h2, fieldMatches, Val.beq, Bool.and_true]

theorem mem_updateFirstDoc_of_not_matching {p : Doc → Bool} {f : Doc → Doc}
    {d : Doc} {db : DB} (hmem : d ∈ db) (hnp : p d = false) :
    d ∈ updateFirstDoc p f db := by
  induction db with
  | nil => simp at hmem
  | cons x ds ih =>
    unfold updateFirstDoc
    rcases List.mem_cons.mp hmem with rfl | hds
    · rw [if_neg (by simp [hnp])]
      exact List.mem_cons_self _ _
    · by_cases hx : p x
      · rw [if_pos hx]
        exact List.mem_cons.mpr (Or.inr hds)
      · rw [if_neg hx]
        exact List.mem_cons.mpr (Or.inr (ih hds))

theorem mem_upsertDoc_of_not_matching {d : Doc} {db : DB} {s2 today : String}
    {nd : Doc} (hmem : d ∈ db) (hnp : keyFilterMatches s2 today d = false) :
    d ∈ upsertDoc s2 today nd db := by
  unfold upsertDoc
  by_cases hany : db.any (keyFilterMatches s2 today)
  · rw [if_pos hany]
    exact mem_updateFirstDoc_of_not_matching hmem hnp
  · rw [if_neg hany]
    exact List.mem_append_left _ hmem

theorem mem_applyUpserts_of_not_matching {d : Doc} {today field : String}
    (results : List (String × Val)) (db : DB) (hmem : d ∈ db)
    (hall : ∀ r ∈ results, keyFilterMatches r.1 today d = false) :
    d ∈ results.foldl (fun acc r => upsertDoc r.1 today [(field, r.2)] acc) db := by
  induction results generalizing db with
  | nil => simpa using hmem
  | cons r rest ih =>
    simp only [List.foldl_cons]
    exact ih _ (mem_upsertDoc_of_not_matching hmem (hall r (List.mem_cons_self _ _)))
      (fun r1 h1 => hall r1 (List.mem_cons.mpr (Or.inr h1)))

theorem not_mem_toAnalyze {field : String} {analyze : String → Val}
    {symbols : List String} {today : String} {db : DB} {s : String}
    (hdoc : ∃ doc ∈ findDocs db symbols today,
      dictLookup doc "symbol" = some (Val.vstr s) ∧
      truthyOpt (dictLookup doc field) = true) :
    s ∉ (processGate field analyze symbols today db).1 := by
  obtain ⟨doc, hmem, hsym, htruthy⟩ := hdoc
  intro hcontra
  unfold processGate at hcontra
  simp only at hcontra
  have := List.of_mem_filter hcontra
  rw [Bool.not_eq_true', List.any_eq_false] at this
  have happ := this doc hmem
  rw [hsym] at happ
  simp [fieldMatches, Val.beq_refl, htruthy] at happ

theorem fieldMatches_unique {s1 s2 : String} (hne : s1 ≠ s2) (o : Option Val)
    (hq : fieldMatches s2 o = true) : fieldMatches s1 o = false := by
  rcases o with _ | w
  · simp [fieldMatches] at hq
  · simp only [fieldMatches] at hq ⊢
    have hw : w = Val.vstr s2 := Val.eq_of_beq hq
    subst hw
    simp only [Val.beq, beq_eq_false_iff_ne, ne_eq]
    exact fun he => hne he.symm

theorem keyFilter_symbol_unique {s1 s2 today : String} (h : s1 ≠ s2) (d : Doc)
    (hq : keyFilterMatches s2 today d = true) :
    keyFilterMatches s1 today d = false := by
  unfold keyFilterMatches at hq ⊢
  rw [Bool.and_eq_true] at hq
  rw [fieldMatches_unique h (dictLookup d "symbol") hq.1]
  simp

theorem find?_append_doc (l1 l2 : DB) (p : Doc → Bool) :
    List.find? p (l1 ++ l2) =
      match List.find? p l1 with
      | some d => some d
      | none => List.find? p l2 := by
  induction l1 with
  | nil => simp
  | cons x ds ih =>
    by_cases hx : p x
    · simp [List.find?_cons, hx]
    · simp only [List.cons_append, List.find?_cons, hx]
      simpa [hx] using ih

theorem find?_updateFirstDoc_self {p : Doc → Bool} {f : Doc → Doc}
    (hpf : ∀ d, p d = true → p (f d) = true) (db : DB) :
    List.find? p (updateFirstDoc p f db) = (List.find? p db).map f := by
  induction db with
  | nil => simp [updateFirstDoc]
  | cons x ds ih =>
    unfold updateFirstDoc
    by_cases hx : p x
    · rw [if_pos hx]
      simp [List.find?_cons, hx, hpf x hx]
    · rw [if_neg hx]
      simp only [List.find?_cons, hx]
      simpa [hx] using ih

theorem find?_updateFirstDoc_disjoint {p q : Doc → Bool} {f : Doc → Doc}
    (h1 : ∀ d, q d = true → p d = false)
    (h2 : ∀ d, q d = true → p (f d) = false) (db : DB) :
    List.find? p (updateFirstDoc q f db) = List.find? p db := by
  induction db with
  | nil => simp [updateFirstDoc]
  | cons x ds ih =>
    unfold updateFirstDoc
    by_cases hx : q x
    · rw [if_pos hx]
      simp [List.find?_cons, h1 x hx, h2 x hx]
    · rw [if_neg hx]
      by_cases hpx : p x
      · simp [List.find?_cons, hpx]
      · simp only [List.find?_cons, hpx]
        simpa [hpx] using ih

theorem find?_upsertDoc_ne {s1 s2 today field : String} {v : Val} {db : DB}
    (hne : s1 ≠ s2) (hf1 : field ≠ "symbol") (hf2 : field ≠ "today_date") :
    List.find? (keyFilterMatches s1 today) (upsertDoc s2 today [(field, v)] db)
      = List.find? (keyFilterMatches s1 today) db := by
  unfold upsertDoc
  rw [withDate_eq field v today hf2]
  by_cases hany : db.any (keyFilterMatches s2 today)
  · rw [if_pos hany]
    apply find?_updateFirstDoc_disjoint
    · exact fun d hq => keyFilter_symbol_unique hne d hq
    · intro d hq
      rw [keyFilterMatches_update d s1 today field v hf1 hf2]
      unfold keyFilterMatches at hq
      rw [Bool.and_eq_true] at hq
      exact fieldMatches_unique hne (dictLookup d "symbol") hq.1
  · rw [if_neg hany]
    rw [find?_append_doc]
    rcases hfd : List.find? (keyFilterMatches s1 today) db with _ | d
    · simp only [List.find?_cons]
      have hnew : keyFilterMatches s1 today
          (dictUpdate [("symbol", Val.vstr s2), ("today_date", Val.vstr today)]
            [(field, v), ("today_date", Val.vstr today)]) = false := by
        rw [keyFilterMatches_update _ s1 today field v hf1 hf2]
        have hl : dictLookup [("symbol", Val.vstr s2), ("today_date", Val.vstr today)]
            "symbol" = some (Val.vstr s2) := by simp [dictLookup]
        rw [hl]
        apply fieldMatches_unique hne
        simp [fieldMatches, Val.beq_refl]
      simp [hnew, List.find?]
    · simp

theorem find?_upsertDoc_self {s1 today field : String} {v : Val} {db : DB} {d : Doc}
    (hf1 : field ≠ "symbol") (hf2 : field ≠ "today_date")
    (hfd : List.find? (keyFilterMatches s1 today) db = some d) :
    List.find? (keyFilterMatches s1 today) (upsertDoc s1 today [(field, v)] db)
      = some (dictUpdate d [(field, v), ("today_date", Val.vstr today)]) := by
  unfold upsertDoc
  rw [withDate_eq field v today hf2]
  have hany : db.any (keyFilterMatches s1 today) = true := by
    rw [List.any_eq_true]
    exact ⟨d, List.mem_of_find?_eq_some hfd, List.find?_some hfd⟩
  rw [if_pos hany]
  rw [find?_updateFirstDoc_self]
  · rw [hfd]; rfl
  · intro d1 hd1
    rw [keyFilterMatches_update d1 s1 today field v hf1 hf2]
    unfold keyFilterMatches at hd1
    rw [Bool.and_eq_true] at hd1
    exact hd1.1


/-- The first matching document survives all gate upserts with its fields
outside the written ones intact. -/
theorem find?_applyUpserts (results : List (String × Val)) (db : DB)
    (s1 today field : String) (d : Doc)
    (hf1 : field ≠ "symbol") (hf2 : field ≠ "today_date")
    (hfd : List.find? (keyFilterMatches s1 today) db = some d) :
    ∃ d2, List.find? (keyFilterMatches s1 today)
        (results.foldl (fun acc r => upsertDoc r.1 today [(field, r.2)] acc) db) = some d2 ∧
      ∀ k, k ≠ field → k ≠ "today_date" → dictLookup d2 k = dictLookup d k := by
  induction results generalizing db d with
  | nil => exact ⟨d, by simpa using hfd, fun k _ _ => rfl⟩
  | cons r rest ih =>
    simp only [List.foldl_cons]
    by_cases hr : s1 = r.1
    · subst hr
      have hstep := find?_upsertDoc_self (v := r.2) hf1 hf2 hfd
      obtain ⟨d2, hd2, hpres⟩ := ih _ _ hstep
      refine ⟨d2, hd2, fun k hk1 hk2 => ?_⟩
      rw [hpres k hk1 hk2, lookup_setPayload d field r.2 today hf2 k]
      simp [hk1, hk2]
    · have hstep : List.find? (keyFilterMatches s1 today)
          (upsertDoc r.1 today [(field, r.2)] db) = some d :=
        (find?_upsertDoc_ne hr hf1 hf2).trans hfd
      exact ih _ _ hstep

/-- After an upsert carrying a truthy value, a cached document for the
upserted symbol exists. -/
theorem exists_cached_after_upsert {s today field : String} {v : Val} (db : DB)
    (hf1 : field ≠ "symbol") (hf2 : field ≠ "today_date")
    (htr : Val.truthy v = true) :
    ∃ d2 ∈ upsertDoc s today [(field, v)] db,
      keyFilterMatches s today d2 = true ∧
      truthyOpt (dictLookup d2 field) = true := by
  unfold upsertDoc
  rw [withDate_eq field v today hf2]
  by_cases hany : db.any (keyFilterMatches s today)
  · rw [if_pos hany]
    obtain ⟨d, hdmem, hpd⟩ := List.any_eq_true.mp hany
    rcases hfd : List.find? (keyFilterMatches s today) db with _ | d0
    · rw [List.find?_eq_none] at hfd
      exact absurd hpd (hfd d hdmem)
    · have hpf : ∀ d1, keyFilterMatches s today d1 = true →
          keyFilterMatches s today
            (dictUpdate d1 [(field, v), ("today_date", Val.vstr today)]) = true := by
        intro d1 hd1
        rw [keyFilterMatches_update d1 s today field v hf1 hf2]
        unfold keyFilterMatches at hd1
        rw [Bool.and_eq_true] at hd1
        exact hd1.1
      have hfind := find?_updateFirstDoc_self
        (f := fun d1 => dictUpdate d1 [(field, v), ("today_date", Val.vstr today)]) hpf db
      rw [hfd] at hfind
      refine ⟨dictUpdate d0 [(field, v), ("today_date", Val.vstr today)],
        List.mem_of_find?_eq_some hfind, List.find?_some hfind, ?_⟩
      rw [lookup_setPayload d0 field v today hf2 field]
      simp [hf2, truthyOpt, htr]
  · rw [if_neg hany]
    refine ⟨dictUpdate [("symbol", Val.vstr s), ("today_date", Val.vstr today)]
        [(field, v), ("today_date", Val.vstr today)],
      List.mem_append_right _ (List.mem_singleton.mpr rfl), ?_, ?_⟩
    · rw [keyFilterMatches_update _ s today field v hf1 hf2]
      have hl : dictLookup [("symbol", Val.vstr s), ("today_date", Val.vstr today)]
          "symbol" = some (Val.vstr s) := by simp [dictLookup]
      rw [hl]
      simp [fieldMatches, Val.beq_refl]
    · rw [lookup_setPayload _ field v today hf2 field]
      simp [hf2, truthyOpt, htr]

/-- A cached document for `s` is preserved by an upsert for any other symbol
and re-established by an upsert for `s` itself with a truthy value. -/
theorem exists_cached_after_applyUpserts {s today field : String}
    (results : List (String × Val)) (db : DB)
    (hf1 : field ≠ "symbol") (hf2 : field ≠ "today_date")
    (hcond : ∀ r ∈ results, r.1 = s → Val.truthy r.2 = true)
    (hinit : (∃ d ∈ db, keyFilterMatches s today d = true ∧
        truthyOpt (dictLookup d field) = true) ∨ (∃ r ∈ results, r.1 = s)) :
    ∃ d2 ∈ results.foldl (fun acc r => upsertDoc r.1 today [(field, r.2)] acc) db,
      keyFilterMatches s today d2 = true ∧
      truthyOpt (dictLookup d2 field) = true := by
  induction results generalizing db with
  | nil =>
    rcases hinit with h | ⟨r, hr, _⟩
    · simpa using h
    · simp at hr
  | cons r rest ih =>
    simp only [List.foldl_cons]
    by_cases hr : r.1 = s
    · have htr : Val.truthy r.2 = true := hcond r (List.mem_cons_self _ _) hr
      apply ih _ (fun r1 h1 => hcond r1 (List.mem_cons.mpr (Or.inr h1)))
      left
      rw [← hr]
      exact exists_cached_after_upsert db hf1 hf2 htr
    · rcases hinit with ⟨d, hdmem, hdk, hdt⟩ | ⟨r1, hr1mem, hr1⟩
      · apply ih _ (fun r1 h1 => hcond r1 (List.mem_cons.mpr (Or.inr h1)))
        left
        refine ⟨d, ?_, hdk, hdt⟩
        apply mem_upsertDoc_of_not_matching hdmem
        exact keyFilter_symbol_unique hr d hdk
      · rcases List.mem_cons.mp hr1mem with rfl | hrest
        · exact absurd hr1 hr
        · apply ih _ (fun r1 h1 => hcond r1 (List.mem_cons.mpr (Or.inr h1)))
          right
          exact ⟨r1, hrest, hr1⟩

/-- A cached document seen through the key filter also satisfies the gate's
find filter when its symbol is in the run list. -/
theorem cached_doc_findDocs {db : DB} {symbols : List String} {today s : String}
    {d : Doc} (hmem : d ∈ db) (hk : keyFilterMatches s today d = true)
    (hs : s ∈ symbols) :
    d ∈ findDocs db symbols today ∧ dictLookup d "symbol" = some (Val.vstr s) := by
  unfold keyFilterMatches at hk
  rw [Bool.and_eq_true] at hk
  rcases hsym : dictLookup d "symbol" with _ | w
  · rw [hsym] at hk
    simp [fieldMatches] at hk
  · rw [hsym] at hk
    have hw : w = Val.vstr s := Val.eq_of_beq hk.1
    subst hw
    constructor
    · apply List.mem_filter.mpr
      refine ⟨hmem, ?_⟩
      unfold docMatches
      rw [hsym]
      simp only [fieldMatchesAny, Bool.and_eq_true]
      constructor
      · rw [List.any_eq_true]
        exact ⟨s, hs, Val.beq_refl _⟩
      · exact hk.2
    · rfl


theorem processGate_snd (field : String) (analyze : String → Val)
    (symbols : List String) (today : String) (db : DB) :
    (processGate field analyze symbols today db).2
      = ((processGate field analyze symbols today db).1.map
          (fun s => (s, analyze s))).foldl
            (fun acc r => upsertDoc r.1 today [(field, r.2)] acc) db := rfl

/-- C8, amended: for a symbol whose `(symbol, today)` document holds a
*truthy* (non-null and non-empty) value of the analysis-kind field, the gate
classifies the symbol as cached on this run and on a second run over the
updated store, passing it to the external computation zero further times;
and every upsert `$set`-merges its result onto the existing same-day
document, preserving all fields other than the analysis field and
`today_date`. -/
theorem c8_amended :
    ∀ (field : String) (analyze : String → Val) (symbols : List String)
      (today : String) (db : DB) (s : String),
      field ≠ "symbol" → field ≠ "today_date" →
      (∃ doc ∈ findDocs db symbols today,
        dictLookup doc "symbol" = some (Val.vstr s) ∧
        truthyOpt (dictLookup doc field) = true) →
      s ∉ (processGate field analyze symbols today db).1 ∧
      s ∉ (processGate field analyze symbols today
            (processGate field analyze symbols today db).2).1 ∧
      (∀ (s1 : String) (d : Doc),
        List.find? (keyFilterMatches s1 today) db = some d →
        ∃ d2, List.find? (keyFilterMatches s1 today)
            (processGate field analyze symbols today db).2 = some d2 ∧
          ∀ k, k ≠ field → k ≠ "today_date" → dictLookup d2 k = dictLookup d k) := by
  intro field analyze symbols today db s hf1 hf2 hdoc
  obtain ⟨doc, hmem, hsym, ht⟩ := hdoc
  have h1 : s ∉ (processGate field analyze symbols today db).1 :=
    not_mem_toAnalyze ⟨doc, hmem, hsym, ht⟩
  have hdbmem : doc ∈ db := (List.mem_filter.mp hmem).1
  have hdm : docMatches symbols today doc = true := (List.mem_filter.mp hmem).2
  have hkfm : keyFilterMatches s today doc = true := by
    unfold keyFilterMatches
    unfold docMatches at hdm
    rw [Bool.and_eq_true] at hdm
    rw [Bool.and_eq_true, hsym]
    refine ⟨by simp [fieldMatches, Val.beq_refl], hdm.2⟩
  have hmem2 : doc ∈ (processGate field analyze symbols today db).2 := by
    rw [processGate_snd]
    apply mem_applyUpserts_of_not_matching _ _ hdbmem
    intro r hr
    obtain ⟨s1, hs1, rfl⟩ := List.mem_map.mp hr
    have hne : s1 ≠ s := fun he => h1 (he ▸ hs1)
    exact keyFilter_symbol_unique hne doc hkfm
  have hfind2 : doc ∈ findDocs (processGate field analyze symbols today db).2
      symbols today := List.mem_filter.mpr ⟨hmem2, hdm⟩
  refine ⟨h1, not_mem_toAnalyze ⟨doc, hfind2, hsym, ht⟩, ?_⟩
  intro s1 d hfd
  rw [processGate_snd]
  exact find?_applyUpserts _ db s1 today field d hf1 hf2 hfd

/-- C8 witness: the amended theorem applied to a store holding a non-empty
suggestion for symbol `AAA`. -/
theorem c8_witness :
    "AAA" ∉ (processGate "suggestion" (fun _ => Val.vstr "done") ["AAA"] "2025-06-02"
      [[("symbol", Val.vstr "AAA"), ("today_date", Val.vstr "2025-06-02"),
        ("suggestion", Val.vstr "prior analysis")]]).1 :=
  (c8_amended "suggestion" (fun _ => Val.vstr "done") ["AAA"] "2025-06-02"
    [[("symbol", Val.vstr "AAA"), ("today_date", Val.vstr "2025-06-02"),
      ("suggestion", Val.vstr "prior analysis")]] "AAA"
    (by decide) (by decide)
    ⟨[("symbol", Val.vstr "AAA"), ("today_date", Val.vstr "2025-06-02"),
      ("suggestion", Val.vstr "prior analysis")],
     by simp [findDocs, docMatches, fieldMatches, fieldMatchesAny, dictLookup, Val.beq],
     by simp [dictLookup],
     by simp [dictLookup, truthyOpt, Val.truthy]⟩).1

/-- C8, counterexample: a `(symbol, today)` document holding the non-null
(but falsy) suggestion `""` is not classified as cached — the symbol is
passed to the external text-generation computation again, because the gate
tests `doc.get("suggestion")` by Python truthiness, not by non-nullness. -/
theorem c8_counterexample :
    dictLookup [("symbol", Val.vstr "AAA"), ("today_date", Val.vstr "2025-06-02"),
        ("suggestion", Val.vstr "")] "suggestion" = some (Val.vstr "") ∧
    some (Val.vstr "") ≠ (none : Option Val) ∧
    (processGate "suggestion" (fun _ => Val.vstr "retry") ["AAA"] "2025-06-02"
        [[("symbol", Val.vstr "AAA"), ("today_date", Val.vstr "2025-06-02"),
          ("suggestion", Val.vstr "")]]).1 = ["AAA"] := by
  refine ⟨by simp [dictLookup], by simp, ?_⟩
  simp [processGate, findDocs, docMatches, fieldMatches, fieldMatchesAny, dictLookup,
    Val.beq, truthyOpt, Val.truthy]


/-- C10, counterexample: on a CIK-not-found failure, `get_company_data`
returns a record whose only fields are `Symbol` and `Error` — the claimed
`Data Date` field is absent on this error path. -/
theorem c10_counterexample :
    getCompanyData "aapl" [] none 0 "2025-06-02" "HTTPError"
      = [("Symbol", Val.vstr "AAPL"), ("Error", Val.vstr "CIK not found")] ∧
    (getCompanyData "aapl" [] none 0 "2025-06-02" "HTTPError").map Prod.fst
      = ["Symbol", "Error"] ∧
    "Data Date" ∉ (getCompanyData "aapl" [] none 0 "2025-06-02" "HTTPError").map Prod.fst := by
  exact ⟨by decide, by decide, by decide⟩

/-- C10, amended: the CIK-not-found path returns exactly
`{Symbol, Error}` and the fetch/parse-exception path returns exactly
`{Symbol, Error, Data Date}`; either error record is a non-empty dict, hence
truthy, and once upserted as `sec_filing_analysis` of the `(symbol, today)`
document by `process_sec_analysis`, a later gate run that day classifies the
symbol as already analyzed and never retries it. -/
theorem c10_amended :
    (∀ (symbol : String) (cikMap : List (String × String)) (fetched : Option SecData)
       (cutoff : ℚ) (today errMsg : String),
      (cikLookup cikMap (strUpper symbol) = none ∨
        cikLookup cikMap (strUpper symbol) = some "") →
      getCompanyData symbol cikMap fetched cutoff today errMsg
        = [("Symbol", Val.vstr (strUpper symbol)), ("Error", Val.vstr "CIK not found")]) ∧
    (∀ (symbol : String) (cikMap : List (String × String)) (cik : String)
       (cutoff : ℚ) (today errMsg : String),
      cikLookup cikMap (strUpper symbol) = some cik → cik ≠ "" →
      getCompanyData symbol cikMap none cutoff today errMsg
        = [("Symbol", Val.vstr (strUpper symbol)), ("Error", Val.vstr errMsg),
           ("Data Date", Val.vstr today)]) ∧
    (∀ (doc : Doc), doc ≠ [] → Val.truthy (Val.vdict doc) = true) ∧
    (∀ (field : String) (analyze : String → Val) (symbols : List String)
       (today : String) (db : DB) (s : String),
      field ≠ "symbol" → field ≠ "today_date" →
      s ∈ symbols →
      Val.truthy (analyze s) = true →
      s ∈ (processGate field analyze symbols today db).1 →
      s ∉ (processGate field analyze symbols today
            (processGate field analyze symbols today db).2).1) := by
  refine ⟨?_, ?_, ?_, ?_⟩
  · intro symbol cikMap fetched cutoff today errMsg h
    unfold getCompanyData
    rcases h with h | h <;> rw [h] <;> try simp
  · intro symbol cikMap cik cutoff today errMsg h hne
    unfold getCompanyData
    rw [h]
    simp [hne]
  · intro doc hne
    simp [Val.truthy, hne]
  · intro field analyze symbols today db s hf1 hf2 hsym htr hta
    have hexists : ∃ d2 ∈ (processGate field analyze symbols today db).2,
        keyFilterMatches s today d2 = true ∧
        truthyOpt (dictLookup d2 field) = true := by
      rw [processGate_snd]
      apply exists_cached_after_applyUpserts _ _ hf1 hf2
      · intro r hr hr1
        obtain ⟨s1, _, rfl⟩ := List.mem_map.mp hr
        simp only at hr1
        rw [hr1]
        exact htr
      · right
        exact ⟨(s, analyze s), List.mem_map_of_mem _ hta, rfl⟩
    obtain ⟨d2, hd2mem, hd2k, hd2t⟩ := hexists
    have hfd := cached_doc_findDocs hd2mem hd2k hsym
    exact not_mem_toAnalyze ⟨d2, hfd.1, hfd.2, hd2t⟩

/-- C10 witness: the amended theorem's exception path applied at a concrete
symbol with a known CIK. -/
theorem c10_witness :
    getCompanyData "AAPL" [("AAPL", "0001")] none 0 "2025-06-02" "HTTPError"
      = [("Symbol", Val.vstr "AAPL"), ("Error", Val.vstr "HTTPError"),
         ("Data Date", Val.vstr "2025-06-02")] := by
  have h := c10_amended.2.1 "AAPL" [("AAPL", "0001")] "0001" 0 "2025-06-02" "HTTPError"
    (by decide) (by decide)
  rw [h]
  decide

end TzBot
